import Mathlib

/-!
# A shallow embedding of `my_thread_pool` (threadpool.h / threadpool.cpp)

The pool is embedded as an interleaving state machine.

* Every public member function (`set_mode`, `set_task_que_max_thresh_hold`,
  `set_thread_size_thresh_hold`, `start`, `submit_task`, the destructor) is one
  atomic transition of the shared state.  `start` holds no lock in the source: the
  transition is the call with no worker scheduled inside it, and its statements
  (`start_prologue`, `launch_thread`, `count_idle`, `count_cur`) are definitions of
  their own, so that a call with a worker turn inside it can be written down.
* `thread_func` is cut at the points where a worker thread can be observed by the
  others: waiting in the locked region at the top of its loop; holding a task it has
  dequeued, outside the lock and about to enter `exec`; inside `exec` with `m_result`
  already evaluated and `run()` in progress; returned.  One call of the step function
  is one turn of one worker.
* `m_not_full.wait_for(lock, 1s, pred)` in `submit_task` returns `pred()` as it is
  when the wait ends; worker turns that happen while the submitter waits are
  ordinary transitions that precede the `submit_task` transition.  So the transition
  rejects exactly when the queue is still full at that moment.
* Heap objects (`Task`, `Result`) live in two stores and are referred to by their
  position; `std::shared_ptr<Task>` and `Result*` are such positions.  Object
  lifetime is not modelled: a `Result` stays in its store once it is constructed.
* `size_t` members and parameters are numbers below `2^64`.
* `std::atomic_int` counters are unbounded integers (a count of live threads stays
  far below `2^31`), but every mixed signed/unsigned comparison of the source is
  taken after the C++ conversion of the signed operand (`toSizeT`, `toUInt`).
  The `std::atomic_uint` task counter wraps at `2^32`.
* `executed` is an observation log: the address of a task is appended each time an
  invocation of its `run()` returns.  No transition reads it.
-/

namespace ThreadPoolModel

/-! ## Constants (threadpool.cpp, lines 6-8) -/

/-- The constant `TASK_MAX_THRESHHOLD`. -/
def TASK_MAX_THRESHHOLD : Nat := 1024

/-- The constant `THREAD_MAX_THRESHHOLD`. -/
def THREAD_MAX_THRESHHOLD : Nat := 100

/-- The constant `THREAD_MAX_IDLE_TIME`, in seconds. -/
def THREAD_MAX_IDLE_TIME : Int := 60

/-- Ticks of `std::chrono::high_resolution_clock` per second (nanosecond period). -/
def TICKS_PER_SECOND : Int := 1000000000

/-- The type `size_t` (64 bit). -/
abbrev SizeT := Fin (2 ^ 64)

/-- Conversion to `size_t` of a non-negative integer constant. -/
def SizeT.ofNat (n : Nat) : SizeT := ⟨n % 2 ^ 64, Nat.mod_lt n (by decide)⟩

/-- Conversion `int -> size_t` (64 bit), as applied by the usual arithmetic conversions. -/
def toSizeT (x : Int) : Nat := (x % (2 ^ 64 : Int)).toNat

/-- Conversion `int -> unsigned int` (32 bit). -/
def toUInt (x : Int) : Nat := (x % (2 ^ 32 : Int)).toNat

/-- The enumeration `PoolMode`. -/
inductive PoolMode where
  | MODE_FIXED
  | MODE_CACHED
  deriving DecidableEq, Repr

/-! ## `Any` -/

/-- The C++ types a value stored in an `Any` can have: `const char*` (the type of the
literal returned by `Result::get` on an invalid result) and the user types `U`. -/
inductive CType (U : Type) where
  | const_char_ptr
  | user (u : U)
  deriving DecidableEq

/-- The values of a C++ type.  A `const char*` is represented by the string it points to. -/
def CType.El {U : Type} (El : U → Type) : CType U → Type
  | .const_char_ptr => String
  | .user u => El u

/-- The class `Any`: `base_` is null or points to a `Derive<T>` holding `m_data`. -/
structure Any {U : Type} (El : U → Type) where
  base_ : Option (Sigma (CType.El El))

section AnyOps

variable {U : Type} {El : U → Type}

/-- The defaulted constructor `Any()`. -/
def Any.empty : Any El := ⟨none⟩

/-- The converting constructor `Any(T data)`. -/
def Any.of (t : CType U) (data : CType.El El t) : Any El := ⟨some ⟨t, data⟩⟩

/-- The member `Any::cast_<T>()`: `dynamic_cast` to `Derive<T>*`, throwing the
literal "type is unmatch!" when it yields null. -/
def Any.cast_ [DecidableEq U] (a : Any El) (t : CType U) : Except String (CType.El El t) :=
  match a.base_ with
  | none => .error "type is unmatch!"
  | some ⟨t', d⟩ => if h : t' = t then .ok (h ▸ d) else .error "type is unmatch!"

end AnyOps

/-! ## `Semaphore` -/

/-- The class `Semaphore` (mutex and condition variable are the blocking of `wait`). -/
structure Semaphore where
  m_res_limit : Int
  m_is_exit : Bool
  deriving DecidableEq, Repr

/-- The constructor `Semaphore(int limit = 0)`. -/
def Semaphore.new (limit : Int) : Semaphore := ⟨limit, false⟩

/-- The member `Semaphore::wait`; `none` means the caller is blocked. -/
def Semaphore.wait (s : Semaphore) : Option Semaphore :=
  if s.m_is_exit then some s
  else if s.m_res_limit > 0 then some { s with m_res_limit := s.m_res_limit - 1 }
  else none

/-- The member `Semaphore::post`. -/
def Semaphore.post (s : Semaphore) : Semaphore :=
  if s.m_is_exit then s else { s with m_res_limit := s.m_res_limit + 1 }

/-! ## `Result` and `Task` objects -/

/-- The class `Result`; `m_task` is the address of the task object. -/
structure Result {U : Type} (El : U → Type) where
  m_any : Any El
  m_sem : Semaphore
  m_task : Nat
  m_is_valid : Bool

/-- The class `Task`.  `run` is the outcome of the virtual `run()`: the `Any` it returns,
or the exception it throws.  `m_result` is null or the address of a `Result`. -/
structure Task {U : Type} (El : U → Type) where
  run : Except String (Any El)
  m_result : Option Nat

section ResultOps

variable {U : Type} {El : U → Type}

/-- The member `Result::set_val`. -/
def Result.set_val (r : Result El) (any : Any El) : Result El :=
  { r with m_any := any, m_sem := r.m_sem.post }

/-- The member `Result::get`: the returned `Any` and the object afterwards (`m_any` is
moved from); `none` means the caller is blocked in `m_sem.wait()`. -/
def Result.get (r : Result El) : Option (Any El × Result El) :=
  if !r.m_is_valid then some (Any.of .const_char_ptr "", r)
  else
    match r.m_sem.wait with
    | none => none
    | some s => some (r.m_any, { r with m_any := Any.empty, m_sem := s })

end ResultOps

/-! ## `Thread` and the registry `m_threads` -/

/-- The class `Thread` (`m_func` is always `ThreadPool::thread_func` bound to the pool). -/
structure Thread where
  m_thread_id : Int
  deriving DecidableEq, Repr

/-- The type `std::unordered_map<int, std::unique_ptr<Thread>>`: keys are unique, a
mapped `none` is a null `unique_ptr`. -/
abbrev Registry := List (Int × Option Thread)

/-- Lookup of a key. -/
def Registry.find (m : Registry) (k : Int) : Option (Option Thread) :=
  match m with
  | [] => none
  | (k', v) :: rest => if k' = k then some v else Registry.find rest k

/-- The call `m_threads.emplace(k, std::move(ptr))`: inserts only when the key is absent. -/
def Registry.emplace (m : Registry) (k : Int) (v : Thread) : Registry :=
  match Registry.find m k with
  | some _ => m
  | none => m ++ [(k, some v)]

/-- The call `m_threads[k]`: a missing key is inserted with a null pointer. -/
def Registry.index (m : Registry) (k : Int) : Registry × Option Thread :=
  match Registry.find m k with
  | some v => (m, v)
  | none => (m ++ [(k, none)], none)

/-- The call `m_threads.erase(k)`. -/
def Registry.erase (m : Registry) (k : Int) : Registry :=
  m.filter (fun e => decide (e.1 ≠ k))

/-! ## The pool and the world around it -/

/-- The data members of `ThreadPool` (mutex and condition variables are the
atomicity of the transitions). -/
structure ThreadPool where
  m_threads : Registry
  m_init_thread_size : SizeT
  m_cur_thread_size : Int
  m_thread_size_thresh_hold : SizeT
  m_idle_thread_size : Int
  m_task_que : List Nat
  m_task_size : Nat
  m_task_que_max_thresh_hold : SizeT
  m_pool_mode : PoolMode
  m_is_pool_running : Bool
  deriving DecidableEq, Repr

/-- Where a thread running `thread_func` is: waiting in the locked region at the top of
its loop; holding a task it has taken from the queue, about to call `task->exec()`;
inside `exec`, after `m_result` has been evaluated and while `run()` is in progress;
returned. -/
inductive WorkerState where
  | waiting
  | taken (task : Nat)
  | executing (task : Nat)
  | returned
  deriving DecidableEq, Repr

/-- A thread created by `Thread::start`, running `thread_func(threadid)`.  While the
thread is inside `exec`, `result` is the value of `m_result` it evaluated on entry. -/
structure Worker where
  threadid : Int
  last_time : Int
  state : WorkerState
  result : Option Nat
  deriving DecidableEq, Repr

/-- What ends the process: a null pointer is dereferenced, or an exception leaves a
thread function (`std::terminate`). -/
inductive Fault where
  | null_deref
  | uncaught (what : String)
  deriving DecidableEq, Repr

/-- The pool, the static `Thread::m_generate_id`, the object stores, the worker threads,
the clock and the observation log. -/
structure World {U : Type} (El : U → Type) where
  pool : ThreadPool
  m_generate_id : Int
  tasks : List (Task El)
  results : List (Result El)
  workers : List Worker
  now : Int
  executed : List Nat

/-- The constructor `ThreadPool::ThreadPool()`. -/
def ThreadPool.new : ThreadPool where
  m_threads := []
  m_init_thread_size := SizeT.ofNat 0
  m_task_que := []
  m_task_size := 0
  m_idle_thread_size := 0
  m_cur_thread_size := 0
  m_task_que_max_thresh_hold := SizeT.ofNat TASK_MAX_THRESHHOLD
  m_thread_size_thresh_hold := SizeT.ofNat THREAD_MAX_THRESHHOLD
  m_pool_mode := PoolMode.MODE_FIXED
  m_is_pool_running := false

/-- The member `ThreadPool::check_running_state`. -/
def ThreadPool.check_running_state (p : ThreadPool) : Bool := p.m_is_pool_running

/-- The member `ThreadPool::set_mode`. -/
def ThreadPool.set_mode (p : ThreadPool) (mode : PoolMode) : ThreadPool :=
  if p.check_running_state then p else { p with m_pool_mode := mode }

/-- The member `ThreadPool::set_task_que_max_thresh_hold`. -/
def ThreadPool.set_task_que_max_thresh_hold (p : ThreadPool) (threshhold : SizeT) : ThreadPool :=
  if p.check_running_state then p else { p with m_task_que_max_thresh_hold := threshhold }

/-- The member `ThreadPool::set_thread_size_thresh_hold`. -/
def ThreadPool.set_thread_size_thresh_hold (p : ThreadPool) (threshhold : SizeT) : ThreadPool :=
  if p.check_running_state then p
  else if p.m_pool_mode = PoolMode.MODE_CACHED then
    { p with m_thread_size_thresh_hold := threshhold }
  else p

section Transitions

variable {U : Type} {El : U → Type}

/-- The world in which `ThreadPool pool;` has just been constructed; `g` is the value of
`Thread::m_generate_id` and `t` the clock reading. -/
def World.fresh (g : Int) (t : Int) : World El where
  pool := ThreadPool.new
  m_generate_id := g
  tasks := []
  results := []
  workers := []
  now := t
  executed := []

/-- The expression `std::make_shared<MyTask>(...)`: a new task object (`Task::Task()` sets
`m_result` to null) whose `run()` has the outcome `body`. -/
def World.make_task (w : World El) (body : Except String (Any El)) : World El :=
  { w with tasks := w.tasks ++ [⟨body, none⟩] }

/-- The member `Task::set_result`, on the task object at address `sp`. -/
def Task.set_result (ts : List (Task El)) (sp : Nat) (res : Nat) : List (Task El) :=
  match ts[sp]? with
  | none => ts
  | some t => ts.set sp { t with m_result := some res }

/-- The constructor `Result::Result(task, is_valid)`: the new object is placed at the end of
the store and `m_task->set_result(this)` is called.  A `task` that is not the address of
a task object is a null dereference. -/
def Result.new (w : World El) (task : Nat) (is_valid : Bool) :
    Except Fault (World El × Nat) :=
  match w.tasks[task]? with
  | none => .error Fault.null_deref
  | some _ =>
    .ok ({ w with
            results := w.results ++ [⟨Any.empty, Semaphore.new 0, task, is_valid⟩]
            tasks := Task.set_result w.tasks task w.results.length },
         w.results.length)

/-- The beginning of `Task::exec` on the task object at address `sp`: the test
`m_result != nullptr` and the evaluation of `m_result` in `m_result->set_val(run())`,
which comes before the call of `run()`.  The value is the pointer that was read. -/
def Task.exec_begin (w : World El) (sp : Nat) : Except Fault (Option Nat) :=
  match w.tasks[sp]? with
  | none => .error Fault.null_deref
  | some t => .ok t.m_result

/-- The end of `Task::exec` on the task object at address `sp`: `run()` returns or throws,
and what it returns is passed to `set_val` of the `Result` whose address `r` was read at
the beginning. -/
def Task.exec_end (w : World El) (sp : Nat) (r : Option Nat) : Except Fault (World El) :=
  match w.tasks[sp]? with
  | none => .error Fault.null_deref
  | some t =>
    match t.run with
    | .error what => .error (Fault.uncaught what)
    | .ok any =>
      match r with
      | none => .error Fault.null_deref
      | some r =>
        match w.results[r]? with
        | none => .error Fault.null_deref
        | some res =>
          .ok { w with
                 executed := w.executed ++ [sp]
                 results := w.results.set r (res.set_val any) }

/-- The member `Task::exec` on the task object at address `sp`, from its beginning to its
end with no other thread scheduled in between. -/
def Task.exec (w : World El) (sp : Nat) : Except Fault (World El) :=
  match Task.exec_begin w sp with
  | .error f => .error f
  | .ok none => .ok w
  | .ok (some r) => Task.exec_end w sp (some r)

/-- The call `m_threads[k]->start()`: the registry is indexed, the thread object found
there starts a thread running `thread_func` with its `m_thread_id` (which reads the
clock on entry), and a null pointer is a fault. -/
def World.launch_thread (w : World El) (k : Int) : Except Fault (World El) :=
  match Registry.index w.pool.m_threads k with
  | (_, none) => .error Fault.null_deref
  | (m, some th) =>
    .ok { w with
           pool := { w.pool with m_threads := m }
           workers := w.workers ++ [⟨th.m_thread_id, w.now, WorkerState.waiting, none⟩] }

/-- The statement `m_idle_thread_size++`. -/
def World.count_idle (w : World El) : World El :=
  { w with pool := { w.pool with m_idle_thread_size := w.pool.m_idle_thread_size + 1 } }

/-- The statement `m_cur_thread_size++`. -/
def World.count_cur (w : World El) : World El :=
  { w with pool := { w.pool with m_cur_thread_size := w.pool.m_cur_thread_size + 1 } }

/-- The call `m_threads[k]->start()` followed by the two counter increments, with no
other thread scheduled in between. -/
def World.start_thread (w : World El) (k : Int) : Except Fault (World El) :=
  match w.launch_thread k with
  | .error f => .error f
  | .ok w' => .ok w'.count_idle.count_cur

/-- The statements creating one `Thread` object: `Thread::Thread` takes `m_generate_id++`
as its id and the object is emplaced under that id. -/
def World.create_thread (w : World El) : World El :=
  { w with
     m_generate_id := w.m_generate_id + 1
     pool := { w.pool with
                m_threads := Registry.emplace w.pool.m_threads w.m_generate_id
                  ⟨w.m_generate_id⟩ } }

/-- The first loop of `ThreadPool::start`: `n` thread objects are created. -/
def World.create_threads : Nat → World El → World El
  | 0, w => w
  | n + 1, w => World.create_threads n w.create_thread

/-- The second loop of `ThreadPool::start`, from index `i`, with `n` rounds left:
`m_threads[i]->start()`, then both counters are incremented. -/
def World.start_threads : Nat → Int → World El → Except Fault (World El)
  | 0, _, w => .ok w
  | n + 1, i, w =>
    match w.start_thread i with
    | .error f => .error f
    | .ok w' => World.start_threads n (i + 1) w'

/-- The statements of `ThreadPool::start` before its second loop: the running flag and
the initial size are set and the thread objects are created. -/
def World.start_prologue (w : World El) (init_thread_size : SizeT) : World El :=
  World.create_threads init_thread_size.val
    { w with pool := { w.pool with
                        m_is_pool_running := true
                        m_init_thread_size := init_thread_size } }

/-- The member `ThreadPool::start`, run from its first statement to its last with no
other thread scheduled in between. -/
def World.start (w : World El) (init_thread_size : SizeT) : Except Fault (World El) :=
  World.start_threads init_thread_size.val 0 (w.start_prologue init_thread_size)

/-- The member `ThreadPool::submit_task`; the result is the world afterwards and the address
of the returned `Result`. -/
def World.submit_task (w : World El) (sp : Nat) : Except Fault (World El × Nat) :=
  if w.pool.m_task_que.length < w.pool.m_task_que_max_thresh_hold.val then
    let w1 : World El :=
      { w with pool := { w.pool with
                          m_task_que := w.pool.m_task_que ++ [sp]
                          m_task_size := (w.pool.m_task_size + 1) % 2 ^ 32 } }
    if w1.pool.m_pool_mode = PoolMode.MODE_CACHED
        ∧ w1.pool.m_task_size > toUInt w1.pool.m_idle_thread_size
        ∧ toSizeT w1.pool.m_cur_thread_size < w1.pool.m_thread_size_thresh_hold.val then
      match w1.create_thread.start_thread w1.m_generate_id with
      | .error f => .error f
      | .ok w2 => Result.new w2 sp true
    else Result.new w1 sp true
  else Result.new w sp false

/-- The seconds a worker has been idle: `duration_cast<seconds>(now - last_time).count()`. -/
def idle_seconds (now last_time : Int) : Int := Int.tdiv (now - last_time) TICKS_PER_SECOND

/-- One turn of worker `i` in `ThreadPool::thread_func`.

* Waiting: when the running flag is false the loops are left and
  `m_threads.erase(threadid)` runs; when the queue is empty the worker waits again,
  except that in cached mode a wait that timed out checks the idle time and may
  return; otherwise the front task is taken and the lock is released.
* Holding a task: `task->exec()` is entered and `m_result` is evaluated; when it is null
  `exec` does nothing and the idle counter and `last_time` are updated.
* Executing: `run()` ends; what it returns is published through the pointer read on
  entry, then the idle counter and `last_time` are updated.  An exception thrown by
  `run()` leaves `exec` and `thread_func`. -/
def World.thread_func (w : World El) (i : Nat) (timed_out : Bool) : Except Fault (World El) :=
  match w.workers[i]? with
  | none => .ok w
  | some wk =>
    match wk.state with
    | WorkerState.returned => .ok w
    | WorkerState.waiting =>
      if !w.pool.m_is_pool_running then
        .ok { w with
               pool := { w.pool with m_threads := Registry.erase w.pool.m_threads wk.threadid }
               workers := w.workers.set i { wk with state := WorkerState.returned } }
      else
        match w.pool.m_task_que with
        | [] =>
          if w.pool.m_pool_mode = PoolMode.MODE_CACHED then
            if timed_out
                ∧ idle_seconds w.now wk.last_time ≥ THREAD_MAX_IDLE_TIME
                ∧ toSizeT w.pool.m_cur_thread_size > w.pool.m_init_thread_size.val then
              .ok { w with
                     pool := { w.pool with
                                m_cur_thread_size := w.pool.m_cur_thread_size - 1
                                m_idle_thread_size := w.pool.m_idle_thread_size - 1 }
                     workers := w.workers.set i { wk with state := WorkerState.returned } }
            else .ok w
          else .ok w
        | task :: rest =>
          .ok { w with
                 pool := { w.pool with
                            m_idle_thread_size := w.pool.m_idle_thread_size - 1
                            m_task_que := rest
                            m_task_size := (w.pool.m_task_size + 2 ^ 32 - 1) % 2 ^ 32 }
                 workers := w.workers.set i { wk with state := WorkerState.taken task } }
    | WorkerState.taken task =>
      match Task.exec_begin w task with
      | .error f => .error f
      | .ok none =>
        .ok { w with
               pool := { w.pool with m_idle_thread_size := w.pool.m_idle_thread_size + 1 }
               workers := w.workers.set i
                 { wk with state := WorkerState.waiting, last_time := w.now } }
      | .ok (some r) =>
        .ok { w with
               workers := w.workers.set i
                 { wk with state := WorkerState.executing task, result := some r } }
    | WorkerState.executing task =>
      match Task.exec_end w task wk.result with
      | .error f => .error f
      | .ok w1 =>
        .ok { w1 with
               pool := { w1.pool with m_idle_thread_size := w1.pool.m_idle_thread_size + 1 }
               workers := w1.workers.set i
                 { wk with state := WorkerState.waiting, last_time := w1.now,
                           result := none } }

/-- The destructor `ThreadPool::~ThreadPool` up to its wait: the running flag is cleared. -/
def World.destructor (w : World El) : World El :=
  { w with pool := { w.pool with m_is_pool_running := false } }

/-- The predicate the destructor waits for on `m_exit_cond`. -/
def World.exit_cond (w : World El) : Bool := w.pool.m_threads.length == 0

/-- The call `Result::get` on the object at address `r`; a blocked call leaves the world
as it is. -/
def World.result_get (w : World El) (r : Nat) : World El :=
  match w.results[r]? with
  | none => w
  | some res =>
    match res.get with
    | none => w
    | some (_, res') => { w with results := w.results.set r res' }

/-- What can happen next. -/
inductive Event {U : Type} (El : U → Type) where
  | set_mode (mode : PoolMode)
  | set_task_que_max_thresh_hold (threshhold : SizeT)
  | set_thread_size_thresh_hold (threshhold : SizeT)
  | start (init_thread_size : SizeT)
  | make_task (body : Except String (Any El))
  | submit_task (sp : Nat)
  | result_get (r : Nat)
  | thread_func (i : Nat) (timed_out : Bool)
  | destructor
  | clock (ticks : Nat)

/-- One transition. -/
def World.step (w : World El) : Event El → Except Fault (World El)
  | .set_mode mode => .ok { w with pool := w.pool.set_mode mode }
  | .set_task_que_max_thresh_hold t =>
    .ok { w with pool := w.pool.set_task_que_max_thresh_hold t }
  | .set_thread_size_thresh_hold t =>
    .ok { w with pool := w.pool.set_thread_size_thresh_hold t }
  | .start n => w.start n
  | .make_task body => .ok (w.make_task body)
  | .submit_task sp =>
    match w.submit_task sp with
    | .error f => .error f
    | .ok (w', _) => .ok w'
  | .result_get r => .ok (w.result_get r)
  | .thread_func i timed_out => w.thread_func i timed_out
  | .destructor => .ok w.destructor
  | .clock ticks => .ok { w with now := w.now + ticks }

/-- A sequence of transitions; a fault ends the process. -/
def World.run (w : World El) : List (Event El) → Except Fault (World El)
  | [] => .ok w
  | e :: es =>
    match w.step e with
    | .error f => .error f
    | .ok w' => World.run w' es

end Transitions

/-! ## The instance used in test.cpp -/

/-- The result types of the demonstration programs: `uLong` (test.cpp) and `int`
(threadpool_final/test.cpp). -/
inductive UserType where
  | uLong
  | int
  deriving DecidableEq, Repr

/-- The values of the demonstration types. -/
def UserEl : UserType → Type
  | .uLong => Nat
  | .int => Int

/-- The body of `MyTask::run` in test.cpp, by the sum it returns. -/
def MyTask (sum : Nat) : Except String (Any UserEl) :=
  .ok (Any.of (CType.user UserType.uLong) sum)

/-- The world a run ends in; a run that faults is cut to its start. -/
def World.after {U : Type} {El : U → Type} (w : World El) (es : List (Event El)) : World El :=
  match w.run es with
  | .ok w' => w'
  | .error _ => w

/-- A body that returns the literal `""`, as `Result::get` does on an invalid result. -/
def EmptyStringTask : Except String (Any UserEl) :=
  .ok (Any.of CType.const_char_ptr "")

/-- A body that throws. -/
def ThrowingTask : Except String (Any UserEl) := .error "task failed"

/-- Capacity 1, fixed mode, `start(1)`; task 0 returns `""` and is accepted (result 0),
task 1 is submitted while task 0 is still queued and is rejected (result 1); then the
worker takes task 0 and executes it. -/
def rejected_next_to_accepted : World UserEl :=
  (World.fresh 0 0).after
    [.set_task_que_max_thresh_hold 1, .start 1, .make_task EmptyStringTask,
     .make_task (MyTask 2), .submit_task 0, .submit_task 1,
     .thread_func 0 false, .thread_func 0 false, .thread_func 0 false]

/-- Whether a worker in this state holds the task at address `p`: it has taken it out of
the queue and has not yet finished `exec`. -/
def WorkerState.holds (p : Nat) : WorkerState → Bool
  | .taken q => decide (q = p)
  | .executing q => decide (q = p)
  | _ => false

section Observations

variable {U : Type} {El : U → Type}

/-- Whether every transition of the sequence passes the test `G` in the world it is
applied to. -/
def World.guarded (G : World El → Event El → Bool) : World El → List (Event El) → Bool
  | _, [] => true
  | w, e :: es =>
    G w e &&
      match w.step e with
      | .ok w' => World.guarded G w' es
      | .error _ => true

end Observations

section Relations

variable {U : Type} {El : U → Type}

/-- What creating and starting `n` threads changes between two worlds: both counters grow
by `n` and `n` waiting workers are added; the registry and the id counter may differ,
nothing else does. -/
structure Spawned (n : Nat) (w w' : World El) : Prop where
  tasks_eq : w'.tasks = w.tasks
  results_eq : w'.results = w.results
  executed_eq : w'.executed = w.executed
  now_eq : w'.now = w.now
  que_eq : w'.pool.m_task_que = w.pool.m_task_que
  task_size_eq : w'.pool.m_task_size = w.pool.m_task_size
  max_eq : w'.pool.m_task_que_max_thresh_hold = w.pool.m_task_que_max_thresh_hold
  thresh_eq : w'.pool.m_thread_size_thresh_hold = w.pool.m_thread_size_thresh_hold
  mode_eq : w'.pool.m_pool_mode = w.pool.m_pool_mode
  running_eq : w'.pool.m_is_pool_running = w.pool.m_is_pool_running
  init_eq : w'.pool.m_init_thread_size = w.pool.m_init_thread_size
  cur_eq : w'.pool.m_cur_thread_size = w.pool.m_cur_thread_size + n
  idle_eq : w'.pool.m_idle_thread_size = w.pool.m_idle_thread_size + n
  workers_eq : ∃ l : List Worker, w'.workers = w.workers ++ l ∧ l.length = n ∧
    ∀ wk ∈ l, wk.state = WorkerState.waiting
  workers_result : ∀ wk ∈ w'.workers, wk ∈ w.workers ∨ wk.result = none

end Relations

/-- Two tasks are submitted to a new pool, then the capacity is set to 1 and the pool is
started with one worker. -/
def capacity_lowered_below_queue : World UserEl :=
  (World.fresh 0 0).after
    [.make_task (MyTask 1), .make_task (MyTask 2), .submit_task 0, .submit_task 1,
     .set_task_que_max_thresh_hold 1, .start 1]

section Guards

variable {U : Type} {El : U → Type}

/-- The test on a transition for the queue bound: a call of
`set_task_que_max_thresh_hold` that takes effect (the pool is not running) passes a
threshold that is at least the current length of the queue. -/
def capacity_guard (w : World El) : Event El → Bool
  | .set_task_que_max_thresh_hold t =>
    w.pool.m_is_pool_running || decide (w.pool.m_task_que.length ≤ t.val)
  | _ => true

end Guards

/-- Cached mode, the thread threshold is set to 1, then `start(2)`. -/
def started_above_threshold : World UserEl :=
  (World.fresh 0 0).after [.set_mode .MODE_CACHED, .set_thread_size_thresh_hold 1, .start 2]

section ThreadGuards

variable {U : Type} {El : U → Type}

/-- The test on a transition for the thread threshold: `start(n)` is called with room for
`n` more threads under the threshold, and a call of `set_thread_size_thresh_hold` that
takes effect (not running, cached mode) passes a threshold that is at least the current
thread count. -/
def threshold_guard (w : World El) : Event El → Bool
  | .start n =>
    decide (w.pool.m_cur_thread_size + n.val ≤ w.pool.m_thread_size_thresh_hold.val)
  | .set_thread_size_thresh_hold t =>
    w.pool.m_is_pool_running || decide (w.pool.m_pool_mode ≠ PoolMode.MODE_CACHED)
      || decide (w.pool.m_cur_thread_size ≤ t.val)
  | _ => true

end ThreadGuards

section RunningGuards

variable {U : Type} {El : U → Type}

/-- The test on a transition for a run after `start`: it is not another `start`. -/
def no_restart_guard (_w : World El) : Event El → Bool
  | .start _ => false
  | _ => true

/-- The test on a transition for a run of a running pool: it is neither another `start`
nor the destructor. -/
def running_guard (_w : World El) : Event El → Bool
  | .start _ => false
  | .destructor => false
  | _ => true

/-- The state a fixed pool keeps while it runs with `n` threads: the count is `n`, there
are `n` worker threads and none of them has returned. -/
def World.FixedAt (n : Nat) (w : World El) : Prop :=
  w.pool.m_pool_mode = PoolMode.MODE_FIXED ∧ w.pool.m_is_pool_running = true ∧
  w.pool.m_cur_thread_size = n ∧ w.workers.length = n ∧
  ∀ wk ∈ w.workers, wk.state ≠ WorkerState.returned

end RunningGuards

/-- Cached mode, `start(1)`.  Worker 0 takes a first task; a second submission finds no
idle thread and creates worker 1, which takes and executes it; worker 0 finishes.  After
60 idle seconds worker 1's wait times out and it returns.  Then the pool is destroyed
and worker 0 leaves `thread_func`. -/
def idle_worker_retired_then_destroyed : World UserEl :=
  (World.fresh 0 0).after
    [.set_mode .MODE_CACHED, .start 1, .make_task (MyTask 1), .submit_task 0,
     .thread_func 0 false, .submit_task 0, .thread_func 1 false, .thread_func 1 false,
     .thread_func 1 false, .thread_func 0 false, .thread_func 0 false,
     .clock 60000000000, .thread_func 1 true, .destructor, .thread_func 0 false]

/-- Cached mode, `start(2)`, then five idle minutes. -/
def two_idle_workers : World UserEl :=
  (World.fresh 0 0).after [.set_mode .MODE_CACHED, .start 2, .clock 300000000000]

/-- Fixed mode, `start(2)`, one task submitted and taken by worker 0. -/
def running_with_busy_worker : World UserEl :=
  (World.fresh 0 0).after
    [.start 2, .make_task (MyTask 1), .submit_task 0, .thread_func 0 false]

/-- Whether a worker is between taking a task and finishing `exec`. -/
def WorkerState.is_executing : WorkerState → Bool
  | .taken _ => true
  | .executing _ => true
  | _ => false

section Counters

variable {U : Type} {El : U → Type}

/-- The number of worker threads that are executing a task. -/
def World.executing_count (w : World El) : Nat :=
  w.workers.countP (fun wk => WorkerState.is_executing wk.state)

/-- The number of worker threads that are waiting at the top of their loop. -/
def World.waiting_count (w : World El) : Nat :=
  w.workers.countP (fun wk => decide (wk.state = WorkerState.waiting))

/-- The meaning of the two counters: the idle count is the current count less the
workers that are executing, and every waiting worker is counted idle. -/
def World.Counted (w : World El) : Prop :=
  w.pool.m_idle_thread_size + (w.executing_count : Int) = w.pool.m_cur_thread_size ∧
  (w.waiting_count : Int) ≤ w.pool.m_idle_thread_size

end Counters

/-- Cached mode; a task is submitted before `start`, which finds no idle thread and
creates the thread with id 0; then `start(1)`. -/
def started_after_early_growth : World UserEl :=
  (World.fresh 0 0).after
    [.set_mode .MODE_CACHED, .make_task (MyTask 1), .submit_task 0, .start 1]

/-- A new pool in a process whose `Thread::m_generate_id` is already 1, after the first
loop of `start(1)`. -/
def second_pool_threads_created : World UserEl :=
  World.create_threads 1
    { (World.fresh 1 0 : World UserEl) with
      pool := { ThreadPool.new with m_is_pool_running := true, m_init_thread_size := 1 } }

/-- Fixed mode; a task is submitted to a new pool, which is not started yet. -/
def queued_before_start : World UserEl :=
  (World.fresh 0 0).after [.make_task (MyTask 1), .submit_task 0]

/-- The call `start(1)` on `queued_before_start` up to `m_threads[0]->start()`, then a
turn of the worker that call has launched, before `m_idle_thread_size++` and
`m_cur_thread_size++` of `start`. -/
def worker_turn_inside_start : World UserEl :=
  match (queued_before_start.start_prologue 1).launch_thread 0 with
  | .error _ => queued_before_start
  | .ok w =>
    match w.thread_func 0 false with
    | .error _ => w
    | .ok w' => w'

/-- A task is submitted in cached mode before `start`, which creates a thread; then the
mode is set back to fixed and `start(1)` is called. -/
def fixed_pool_started_after_growth : World UserEl :=
  (World.fresh 0 0).after
    [.make_task (MyTask 1), .set_mode .MODE_CACHED, .submit_task 0,
     .set_mode .MODE_FIXED, .start 1]

section Handles

variable {U : Type} {El : U → Type}

end Handles

/-! ## Theorems -/

section Claims

variable {U : Type} {El : U → Type}

/-! ### What each transition does -/

theorem countP_set_eq {α : Type} (q : α → Bool) :
    ∀ (l : List α) (i : Nat) (a b : α), l[i]? = some a →
      (l.set i b).countP q + (if q a then 1 else 0) = l.countP q + (if q b then 1 else 0)
  | [], i, a, b, h => by simp at h
  | x :: l, 0, a, b, h => by
    simp only [List.getElem?_cons_zero, Option.some.injEq] at h
    subst h
    simp only [List.set_cons_zero, List.countP_cons]
    omega
  | x :: l, i + 1, a, b, h => by
    simp only [List.getElem?_cons_succ] at h
    have ih := countP_set_eq q l i a b h
    simp only [List.set_cons_succ, List.countP_cons]
    omega

theorem Spawned.refl (w : World El) : Spawned 0 w w :=
  ⟨rfl, rfl, rfl, rfl, rfl, rfl, rfl, rfl, rfl, rfl, rfl, by simp, by simp,
   ⟨[], by simp, rfl, by simp⟩, fun _ h => Or.inl h⟩

theorem Spawned.trans {a b : Nat} {w w1 w2 : World El} (h1 : Spawned a w w1)
    (h2 : Spawned b w1 w2) : Spawned (a + b) w w2 := by
  obtain ⟨l1, e1, n1, s1⟩ := h1.workers_eq
  obtain ⟨l2, e2, n2, s2⟩ := h2.workers_eq
  refine ⟨h2.tasks_eq.trans h1.tasks_eq, h2.results_eq.trans h1.results_eq,
    h2.executed_eq.trans h1.executed_eq, h2.now_eq.trans h1.now_eq,
    h2.que_eq.trans h1.que_eq, h2.task_size_eq.trans h1.task_size_eq,
    h2.max_eq.trans h1.max_eq, h2.thresh_eq.trans h1.thresh_eq,
    h2.mode_eq.trans h1.mode_eq, h2.running_eq.trans h1.running_eq,
    h2.init_eq.trans h1.init_eq, ?_, ?_, ⟨l1 ++ l2, ?_, ?_, ?_⟩, ?_⟩
  · rw [h2.cur_eq, h1.cur_eq]; push_cast; ring
  · rw [h2.idle_eq, h1.idle_eq]; push_cast; ring
  · rw [e2, e1, List.append_assoc]
  · simp [n1, n2]
  · intro wk hwk
    rcases List.mem_append.mp hwk with h | h
    · exact s1 wk h
    · exact s2 wk h
  · intro wk hwk
    rcases h2.workers_result wk hwk with h | h
    · exact h1.workers_result wk h
    · exact Or.inr h

theorem World.create_thread_spawned (w : World El) : Spawned 0 w w.create_thread :=
  ⟨rfl, rfl, rfl, rfl, rfl, rfl, rfl, rfl, rfl, rfl, rfl, by simp [World.create_thread],
   by simp [World.create_thread], ⟨[], by simp [World.create_thread], rfl, by simp⟩,
   fun _ h => Or.inl h⟩

theorem World.create_threads_spawned :
    ∀ (n : Nat) (w : World El), Spawned 0 w (World.create_threads n w)
  | 0, w => Spawned.refl w
  | n + 1, w => by
    have h := Spawned.trans (World.create_thread_spawned w)
      (World.create_threads_spawned n w.create_thread)
    simpa [World.create_threads] using h

/-- The effect of `m_threads[k]->start()`. -/
theorem World.launch_thread_ok (w w' : World El) (k : Int)
    (h : w.launch_thread k = .ok w') :
    ∃ m th, Registry.index w.pool.m_threads k = (m, some th) ∧
      w' = { w with
              pool := { w.pool with m_threads := m }
              workers := w.workers ++ [⟨th.m_thread_id, w.now, WorkerState.waiting, none⟩] } := by
  unfold World.launch_thread at h
  split at h
  · cases h
  · rename_i m th hidx
    cases h
    exact ⟨m, th, hidx, rfl⟩

theorem World.start_thread_spawned (w w' : World El) (k : Int)
    (h : w.start_thread k = .ok w') : Spawned 1 w w' := by
  unfold World.start_thread at h
  split at h
  · cases h
  · rename_i w1 h1
    obtain ⟨m, th, _, hw1⟩ := World.launch_thread_ok w w1 k h1
    cases h
    subst hw1
    refine ⟨rfl, rfl, rfl, rfl, rfl, rfl, rfl, rfl, rfl, rfl, rfl,
      by simp [World.count_idle, World.count_cur],
      by simp [World.count_idle, World.count_cur],
      ⟨[⟨th.m_thread_id, w.now, WorkerState.waiting, none⟩], rfl, rfl, by simp⟩, ?_⟩
    intro wk hwk
    rcases List.mem_append.mp hwk with h | h
    · exact Or.inl h
    · right
      rw [List.mem_singleton.mp h]

theorem World.start_threads_spawned :
    ∀ (n : Nat) (i : Int) (w w' : World El),
      World.start_threads n i w = .ok w' → Spawned n w w'
  | 0, i, w, w', h => by
    simp only [World.start_threads, Except.ok.injEq] at h
    subst h
    exact Spawned.refl w
  | n + 1, i, w, w', h => by
    simp only [World.start_threads] at h
    split at h
    · cases h
    · rename_i w1 h1
      have hs := Spawned.trans (World.start_thread_spawned w w1 i h1)
        (World.start_threads_spawned n (i + 1) w1 w' h)
      rw [Nat.add_comm] at hs
      exact hs

/-- The effect of `start`: the flag and the initial size are set, then `n` threads are
created and started. -/
theorem World.start_ok (w w' : World El) (n : SizeT) (h : w.start n = .ok w') :
    Spawned n.val
      { w with pool := { w.pool with m_is_pool_running := true, m_init_thread_size := n } }
      w' := by
  unfold World.start World.start_prologue at h
  have h2 := World.start_threads_spawned n.val 0 _ w' h
  have h1 := World.create_threads_spawned n.val
    ({ w with pool := { w.pool with m_is_pool_running := true, m_init_thread_size := n } } :
      World El)
  have := Spawned.trans h1 h2
  simpa using this

/-- The effect of the `Result` constructor. -/
theorem Result.new_ok (w w' : World El) (task r : Nat) (valid : Bool)
    (h : Result.new w task valid = .ok (w', r)) :
    (∃ t, w.tasks[task]? = some t) ∧ r = w.results.length ∧
    w' = { w with
            results := w.results ++ [⟨Any.empty, Semaphore.new 0, task, valid⟩]
            tasks := Task.set_result w.tasks task w.results.length } := by
  unfold Result.new at h
  split at h
  · cases h
  · rename_i t ht
    simp only [Except.ok.injEq, Prod.mk.injEq] at h
    exact ⟨⟨t, ht⟩, h.2.symm, h.1.symm⟩

/-- The outcomes of `submit_task`: rejected, accepted, accepted with a new thread. -/
theorem World.submit_task_ok (w w' : World El) (sp r : Nat)
    (h : w.submit_task sp = .ok (w', r)) :
    (w.pool.m_task_que_max_thresh_hold.val ≤ w.pool.m_task_que.length ∧
      Result.new w sp false = .ok (w', r)) ∨
    (w.pool.m_task_que.length < w.pool.m_task_que_max_thresh_hold.val ∧
      Result.new
        { w with pool := { w.pool with
                            m_task_que := w.pool.m_task_que ++ [sp]
                            m_task_size := (w.pool.m_task_size + 1) % 2 ^ 32 } }
        sp true = .ok (w', r)) ∨
    (w.pool.m_task_que.length < w.pool.m_task_que_max_thresh_hold.val ∧
      w.pool.m_pool_mode = PoolMode.MODE_CACHED ∧
      toSizeT w.pool.m_cur_thread_size < w.pool.m_thread_size_thresh_hold.val ∧
      ∃ w2, Spawned 1
        ({ w with pool := { w.pool with
                            m_task_que := w.pool.m_task_que ++ [sp]
                            m_task_size := (w.pool.m_task_size + 1) % 2 ^ 32 } } : World El)
        w2 ∧ Result.new w2 sp true = .ok (w', r)) := by
  unfold World.submit_task at h
  split at h
  · rename_i hlt
    simp only at h
    split at h
    · rename_i hc
      split at h
      · cases h
      · rename_i w2 h2
        right; right
        refine ⟨hlt, hc.1, hc.2.2, w2, ?_, h⟩
        have hs := Spawned.trans (World.create_thread_spawned _) (World.start_thread_spawned _ w2 _ h2)
        simpa using hs
    · right; left
      exact ⟨hlt, h⟩
  · rename_i hlt
    left
    exact ⟨by omega, h⟩

/-- The outcome of the beginning of `Task::exec`. -/
theorem Task.exec_begin_ok (w : World El) (sp : Nat) (r : Option Nat)
    (h : Task.exec_begin w sp = .ok r) :
    ∃ t, w.tasks[sp]? = some t ∧ t.m_result = r := by
  unfold Task.exec_begin at h
  split at h
  · cases h
  · rename_i t ht
    cases h
    exact ⟨t, ht, rfl⟩

/-- The outcome of the end of `Task::exec`. -/
theorem Task.exec_end_ok (w w1 : World El) (sp : Nat) (ro : Option Nat)
    (h : Task.exec_end w sp ro = .ok w1) :
    ∃ t r any res, w.tasks[sp]? = some t ∧ ro = some r ∧ t.run = .ok any ∧
      w.results[r]? = some res ∧
      w1 = { w with executed := w.executed ++ [sp]
                    results := w.results.set r (res.set_val any) } := by
  unfold Task.exec_end at h
  split at h
  · cases h
  · rename_i t ht
    split at h
    · cases h
    · rename_i any hrun
      split at h
      · cases h
      · rename_i r
        split at h
        · cases h
        · rename_i res hres
          exact ⟨t, r, any, res, ht, rfl, hrun, hres, by cases h; rfl⟩

/-- The outcomes of one turn of a worker. -/
theorem World.thread_func_ok (w w' : World El) (i : Nat) (b : Bool)
    (h : w.thread_func i b = .ok w') :
    w' = w ∨
    (∃ wk, w.workers[i]? = some wk ∧ wk.state = WorkerState.waiting ∧
      w.pool.m_is_pool_running = false ∧
      w' = { w with
              pool := { w.pool with m_threads := Registry.erase w.pool.m_threads wk.threadid }
              workers := w.workers.set i { wk with state := WorkerState.returned } }) ∨
    (∃ wk, w.workers[i]? = some wk ∧ wk.state = WorkerState.waiting ∧
      w.pool.m_is_pool_running = true ∧ w.pool.m_task_que = [] ∧
      w.pool.m_pool_mode = PoolMode.MODE_CACHED ∧ b = true ∧
      idle_seconds w.now wk.last_time ≥ THREAD_MAX_IDLE_TIME ∧
      toSizeT w.pool.m_cur_thread_size > w.pool.m_init_thread_size.val ∧
      w' = { w with
              pool := { w.pool with
                         m_cur_thread_size := w.pool.m_cur_thread_size - 1
                         m_idle_thread_size := w.pool.m_idle_thread_size - 1 }
              workers := w.workers.set i { wk with state := WorkerState.returned } }) ∨
    (∃ wk task rest, w.workers[i]? = some wk ∧ wk.state = WorkerState.waiting ∧
      w.pool.m_is_pool_running = true ∧ w.pool.m_task_que = task :: rest ∧
      w' = { w with
              pool := { w.pool with
                         m_idle_thread_size := w.pool.m_idle_thread_size - 1
                         m_task_que := rest
                         m_task_size := (w.pool.m_task_size + 2 ^ 32 - 1) % 2 ^ 32 }
              workers := w.workers.set i { wk with state := WorkerState.taken task } }) ∨
    (∃ wk task t, w.workers[i]? = some wk ∧ wk.state = WorkerState.taken task ∧
      w.tasks[task]? = some t ∧ t.m_result = none ∧
      w' = { w with
              pool := { w.pool with m_idle_thread_size := w.pool.m_idle_thread_size + 1 }
              workers := w.workers.set i
                { wk with state := WorkerState.waiting, last_time := w.now } }) ∨
    (∃ wk task t r, w.workers[i]? = some wk ∧ wk.state = WorkerState.taken task ∧
      w.tasks[task]? = some t ∧ t.m_result = some r ∧
      w' = { w with
              workers := w.workers.set i
                { wk with state := WorkerState.executing task, result := some r } }) ∨
    (∃ wk task t r any res, w.workers[i]? = some wk ∧
      wk.state = WorkerState.executing task ∧ wk.result = some r ∧
      w.tasks[task]? = some t ∧ t.run = .ok any ∧ w.results[r]? = some res ∧
      w' = { w with
              executed := w.executed ++ [task]
              results := w.results.set r (res.set_val any)
              pool := { w.pool with m_idle_thread_size := w.pool.m_idle_thread_size + 1 }
              workers := w.workers.set i
                { wk with state := WorkerState.waiting, last_time := w.now,
                          result := none } }) := by
  unfold World.thread_func at h
  split at h
  · left; cases h; rfl
  · rename_i wk hwk
    split at h
    · left; cases h; rfl
    · rename_i hst
      split at h
      · rename_i hrun
        right; left
        refine ⟨wk, hwk, hst, by simpa using hrun, by cases h; rfl⟩
      · rename_i hrun
        have hrun' : w.pool.m_is_pool_running = true := by simpa using hrun
        split at h
        · rename_i hq
          split at h
          · rename_i hmode
            split at h
            · rename_i hc
              right; right; left
              exact ⟨wk, hwk, hst, hrun', hq, hmode, hc.1, hc.2.1, hc.2.2, by cases h; rfl⟩
            · left; cases h; rfl
          · left; cases h; rfl
        · rename_i task rest hq
          right; right; right; left
          exact ⟨wk, task, rest, hwk, hst, hrun', hq, by cases h; rfl⟩
    · rename_i task hst
      split at h
      · cases h
      · rename_i hb
        obtain ⟨t, ht, hr⟩ := Task.exec_begin_ok w task none hb
        right; right; right; right; left
        exact ⟨wk, task, t, hwk, hst, ht, hr, by cases h; rfl⟩
      · rename_i r hb
        obtain ⟨t, ht, hr⟩ := Task.exec_begin_ok w task (some r) hb
        right; right; right; right; right; left
        exact ⟨wk, task, t, r, hwk, hst, ht, hr, by cases h; rfl⟩
    · rename_i task hst
      split at h
      · cases h
      · rename_i w1 hexec
        obtain ⟨t, r, any, res, ht, hr, hrun, hres, hw1⟩ :=
          Task.exec_end_ok w w1 task wk.result hexec
        right; right; right; right; right; right
        subst hw1
        exact ⟨wk, task, t, r, any, res, hwk, hst, hr, ht, hrun, hres, by cases h; rfl⟩

/-- A property that every guarded transition preserves holds at the end of every guarded
run. -/
theorem World.run_invariant (P : World El → Prop) (G : World El → Event El → Bool)
    (hstep : ∀ w e w', P w → G w e = true → w.step e = .ok w' → P w') :
    ∀ (es : List (Event El)) (w w' : World El),
      P w → World.guarded G w es = true → w.run es = .ok w' → P w'
  | [], w, w', hP, _, h => by
    simp only [World.run, Except.ok.injEq] at h
    subst h
    exact hP
  | e :: es, w, w', hP, hG, h => by
    simp only [World.run] at h
    simp only [World.guarded, Bool.and_eq_true] at hG
    split at h
    · cases h
    · rename_i w1 h1
      rw [h1] at hG
      exact World.run_invariant P G hstep es w1 w' (hstep w e w1 hP hG.1 h1) hG.2 h

theorem World.guarded_true :
    ∀ (es : List (Event El)) (w : World El), World.guarded (fun _ _ => true) w es = true
  | [], _ => rfl
  | e :: es, w => by
    simp only [World.guarded, Bool.true_and]
    split
    · exact World.guarded_true es _
    · rfl

/-! ### The accounting of task bodies -/

theorem WorkerState.holds_returned (p : Nat) :
    WorkerState.holds p WorkerState.returned = false := rfl

theorem Result.new_pool (w w' : World El) (task r : Nat) (valid : Bool)
    (h : Result.new w task valid = .ok (w', r)) :
    w'.pool = w.pool ∧ w'.workers = w.workers ∧ w'.now = w.now := by
  obtain ⟨_, _, hw⟩ := Result.new_ok w w' task r valid h
  subst hw
  exact ⟨rfl, rfl, rfl⟩

theorem World.result_get_pool (w : World El) (r : Nat) :
    (w.result_get r).pool = w.pool ∧ (w.result_get r).workers = w.workers ∧
    (w.result_get r).now = w.now := by
  unfold World.result_get
  split
  · exact ⟨rfl, rfl, rfl⟩
  · split
    · exact ⟨rfl, rfl, rfl⟩
    · exact ⟨rfl, rfl, rfl⟩

/-- The queue bound `m_task_que.size() <= m_task_que_max_thresh_hold`. -/
theorem World.queue_bound_step (w w' : World El) (e : Event El)
    (h : w.pool.m_task_que.length ≤ w.pool.m_task_que_max_thresh_hold.val)
    (hg : capacity_guard w e = true) (hs : w.step e = .ok w') :
    w'.pool.m_task_que.length ≤ w'.pool.m_task_que_max_thresh_hold.val := by
  cases e with
  | set_mode mode =>
    simp only [World.step, Except.ok.injEq] at hs
    subst hs
    simp only [ThreadPool.set_mode]
    split <;> exact h
  | set_task_que_max_thresh_hold t =>
    simp only [World.step, Except.ok.injEq] at hs
    subst hs
    simp only [capacity_guard, Bool.or_eq_true, decide_eq_true_eq] at hg
    simp only [ThreadPool.set_task_que_max_thresh_hold, ThreadPool.check_running_state]
    split
    · exact h
    · rename_i hr
      rcases hg with hg | hg
      · exact absurd hg hr
      · exact hg
  | set_thread_size_thresh_hold t =>
    simp only [World.step, Except.ok.injEq] at hs
    subst hs
    simp only [ThreadPool.set_thread_size_thresh_hold]
    split
    · exact h
    · split <;> exact h
  | start n =>
    simp only [World.step] at hs
    have hsp := World.start_ok w w' n hs
    rw [hsp.que_eq, hsp.max_eq]
    exact h
  | make_task body =>
    simp only [World.step, Except.ok.injEq] at hs
    subst hs
    exact h
  | submit_task sp =>
    simp only [World.step] at hs
    split at hs
    · cases hs
    · rename_i w1 r hsub
      cases hs
      rcases World.submit_task_ok w w' sp r hsub with
        ⟨_, hn⟩ | ⟨hlt, hn⟩ | ⟨hlt, _, _, w2, hsp, hn⟩
      · rw [(Result.new_pool _ _ _ _ _ hn).1]
        exact h
      · rw [(Result.new_pool _ _ _ _ _ hn).1]
        simp only [List.length_append, List.length_singleton]
        omega
      · rw [(Result.new_pool _ _ _ _ _ hn).1, hsp.que_eq, hsp.max_eq]
        simp only [List.length_append, List.length_singleton]
        omega
  | result_get r =>
    simp only [World.step, Except.ok.injEq] at hs
    subst hs
    rw [(World.result_get_pool w r).1]
    exact h
  | thread_func i b =>
    simp only [World.step] at hs
    rcases World.thread_func_ok w w' i b hs with
      hw | ⟨wk, _, _, _, hw⟩ | ⟨wk, _, _, _, _, _, _, _, _, hw⟩ |
      ⟨wk, task, rest, _, _, _, hq, hw⟩ | ⟨wk, task, t, _, _, _, _, hw⟩ |
      ⟨wk, task, t, r, _, _, _, _, hw⟩ |
      ⟨wk, task, t, r, any, res, _, _, _, _, _, _, hw⟩
    · subst hw; exact h
    · subst hw; exact h
    · subst hw; exact h
    · subst hw
      rw [hq] at h
      simp only [List.length_cons] at h
      show rest.length ≤ w.pool.m_task_que_max_thresh_hold.val
      omega
    · subst hw; exact h
    · subst hw; exact h
    · subst hw; exact h
  | destructor =>
    simp only [World.step, Except.ok.injEq] at hs
    subst hs
    exact h
  | clock ticks =>
    simp only [World.step, Except.ok.injEq] at hs
    subst hs
    exact h

theorem toSizeT_lt_imp (x : Int) (t : SizeT) (hx : x ≤ t.val) (h : toSizeT x < t.val) :
    x + 1 ≤ t.val := by
  have ht := t.isLt
  unfold toSizeT at h
  norm_num at ht h ⊢
  omega

theorem toSizeT_gt_imp (x : Int) (t : SizeT) (hx : 0 ≤ x) (h : toSizeT x > t.val) :
    (t.val : Int) ≤ x - 1 := by
  unfold toSizeT at h
  norm_num at h ⊢
  omega

/-- The thread bound `m_cur_thread_size <= m_thread_size_thresh_hold`. -/
theorem World.thread_bound_step (w w' : World El) (e : Event El)
    (h : w.pool.m_cur_thread_size ≤ w.pool.m_thread_size_thresh_hold.val)
    (hg : threshold_guard w e = true) (hs : w.step e = .ok w') :
    w'.pool.m_cur_thread_size ≤ w'.pool.m_thread_size_thresh_hold.val := by
  cases e with
  | set_mode mode =>
    simp only [World.step, Except.ok.injEq] at hs
    subst hs
    simp only [ThreadPool.set_mode]
    split <;> exact h
  | set_task_que_max_thresh_hold t =>
    simp only [World.step, Except.ok.injEq] at hs
    subst hs
    simp only [ThreadPool.set_task_que_max_thresh_hold]
    split <;> exact h
  | set_thread_size_thresh_hold t =>
    simp only [World.step, Except.ok.injEq] at hs
    subst hs
    simp only [threshold_guard, Bool.or_eq_true, decide_eq_true_eq] at hg
    simp only [ThreadPool.set_thread_size_thresh_hold, ThreadPool.check_running_state]
    split
    · exact h
    · rename_i hr
      split
      · rename_i hm
        rcases hg with (hg | hg) | hg
        · exact absurd hg hr
        · exact absurd hm hg
        · exact hg
      · exact h
  | start n =>
    simp only [World.step] at hs
    have hsp := World.start_ok w w' n hs
    simp only [threshold_guard, decide_eq_true_eq] at hg
    rw [hsp.cur_eq, hsp.thresh_eq]
    exact hg
  | make_task body =>
    simp only [World.step, Except.ok.injEq] at hs
    subst hs
    exact h
  | submit_task sp =>
    simp only [World.step] at hs
    split at hs
    · cases hs
    · rename_i w1 r hsub
      cases hs
      rcases World.submit_task_ok w w' sp r hsub with
        ⟨_, hn⟩ | ⟨_, hn⟩ | ⟨_, _, hlt, w2, hsp, hn⟩
      · rw [(Result.new_pool _ _ _ _ _ hn).1]
        exact h
      · rw [(Result.new_pool _ _ _ _ _ hn).1]
        exact h
      · rw [(Result.new_pool _ _ _ _ _ hn).1, hsp.cur_eq, hsp.thresh_eq]
        have := toSizeT_lt_imp _ _ h hlt
        simpa using this
  | result_get r =>
    simp only [World.step, Except.ok.injEq] at hs
    subst hs
    rw [(World.result_get_pool w r).1]
    exact h
  | thread_func i b =>
    simp only [World.step] at hs
    rcases World.thread_func_ok w w' i b hs with
      hw | ⟨wk, _, _, _, hw⟩ | ⟨wk, _, _, _, _, _, _, _, _, hw⟩ |
      ⟨wk, task, rest, _, _, _, hq, hw⟩ | ⟨wk, task, t, _, _, _, _, hw⟩ |
      ⟨wk, task, t, r, _, _, _, _, hw⟩ |
      ⟨wk, task, t, r, any, res, _, _, _, _, _, _, hw⟩
    · subst hw; exact h
    · subst hw; exact h
    · subst hw
      show w.pool.m_cur_thread_size - 1 ≤ w.pool.m_thread_size_thresh_hold.val
      omega
    · subst hw; exact h
    · subst hw; exact h
    · subst hw; exact h
    · subst hw; exact h
  | destructor =>
    simp only [World.step, Except.ok.injEq] at hs
    subst hs
    exact h
  | clock ticks =>
    simp only [World.step, Except.ok.injEq] at hs
    subst hs
    exact h

theorem ThreadPool.set_mode_running (p : ThreadPool) (mode : PoolMode)
    (h : p.m_is_pool_running = true) : p.set_mode mode = p := by
  simp [ThreadPool.set_mode, ThreadPool.check_running_state, h]

theorem ThreadPool.set_task_que_max_thresh_hold_running (p : ThreadPool) (t : SizeT)
    (h : p.m_is_pool_running = true) : p.set_task_que_max_thresh_hold t = p := by
  simp [ThreadPool.set_task_que_max_thresh_hold, ThreadPool.check_running_state, h]

theorem ThreadPool.set_thread_size_thresh_hold_running (p : ThreadPool) (t : SizeT)
    (h : p.m_is_pool_running = true) : p.set_thread_size_thresh_hold t = p := by
  simp [ThreadPool.set_thread_size_thresh_hold, ThreadPool.check_running_state, h]

theorem World.not_returned_set (ws : List Worker) (i : Nat) (wk : Worker)
    (h : ∀ x ∈ ws, x.state ≠ WorkerState.returned) (hwk : wk.state ≠ WorkerState.returned) :
    ∀ x ∈ ws.set i wk, x.state ≠ WorkerState.returned := by
  intro x hx
  rcases List.mem_or_eq_of_mem_set hx with hx | hx
  · exact h x hx
  · subst hx; exact hwk

/-- A running fixed pool keeps its thread count, its worker threads, and none of them
returns. -/
theorem World.FixedAt.preserved_by_running_step {n : Nat} {w w' : World El} {e : Event El} (h : w.FixedAt n)
    (hg : running_guard w e = true) (hs : w.step e = .ok w') : w'.FixedAt n := by
  obtain ⟨hmode, hrun, hcur, hlen, hst⟩ := h
  cases e with
  | set_mode mode =>
    simp only [World.step, Except.ok.injEq] at hs
    subst hs
    simp only [World.FixedAt, ThreadPool.set_mode_running _ _ hrun]
    exact ⟨hmode, hrun, hcur, hlen, hst⟩
  | set_task_que_max_thresh_hold t =>
    simp only [World.step, Except.ok.injEq] at hs
    subst hs
    simp only [World.FixedAt, ThreadPool.set_task_que_max_thresh_hold_running _ _ hrun]
    exact ⟨hmode, hrun, hcur, hlen, hst⟩
  | set_thread_size_thresh_hold t =>
    simp only [World.step, Except.ok.injEq] at hs
    subst hs
    simp only [World.FixedAt, ThreadPool.set_thread_size_thresh_hold_running _ _ hrun]
    exact ⟨hmode, hrun, hcur, hlen, hst⟩
  | start m => simp [running_guard] at hg
  | make_task body =>
    simp only [World.step, Except.ok.injEq] at hs
    subst hs
    exact ⟨hmode, hrun, hcur, hlen, hst⟩
  | submit_task sp =>
    simp only [World.step] at hs
    split at hs
    · cases hs
    · rename_i w1 r hsub
      cases hs
      rcases World.submit_task_ok w w' sp r hsub with
        ⟨_, hn⟩ | ⟨_, hn⟩ | ⟨_, hc, _, w2, hsp, hn⟩
      · obtain ⟨hp, hw, _⟩ := Result.new_pool _ _ _ _ _ hn
        simp only [World.FixedAt, hp, hw]
        exact ⟨hmode, hrun, hcur, hlen, hst⟩
      · obtain ⟨hp, hw, _⟩ := Result.new_pool _ _ _ _ _ hn
        simp only [World.FixedAt, hp, hw]
        exact ⟨hmode, hrun, hcur, hlen, hst⟩
      · rw [hmode] at hc
        cases hc
  | result_get r =>
    simp only [World.step, Except.ok.injEq] at hs
    subst hs
    obtain ⟨hp, hw, _⟩ := World.result_get_pool w r
    simp only [World.FixedAt, hp, hw]
    exact ⟨hmode, hrun, hcur, hlen, hst⟩
  | thread_func i b =>
    simp only [World.step] at hs
    rcases World.thread_func_ok w w' i b hs with
      hw | ⟨wk, _, _, hr, hw⟩ | ⟨wk, _, _, _, _, hm, _, _, _, hw⟩ |
      ⟨wk, task, rest, _, _, _, hq, hw⟩ | ⟨wk, task, t, _, _, _, _, hw⟩ |
      ⟨wk, task, t, r, _, _, _, _, hw⟩ |
      ⟨wk, task, t, r, any, res, _, _, _, _, _, _, hw⟩
    · subst hw; exact ⟨hmode, hrun, hcur, hlen, hst⟩
    · rw [hrun] at hr; cases hr
    · rw [hmode] at hm; cases hm
    · subst hw
      refine ⟨hmode, hrun, hcur, ?_, ?_⟩
      · simpa using hlen
      · exact World.not_returned_set _ _ _ hst (by simp)
    · subst hw
      refine ⟨hmode, hrun, hcur, ?_, ?_⟩
      · simpa using hlen
      · exact World.not_returned_set _ _ _ hst (by simp)
    · subst hw
      refine ⟨hmode, hrun, hcur, ?_, ?_⟩
      · simpa using hlen
      · exact World.not_returned_set _ _ _ hst (by simp)
    · subst hw
      refine ⟨hmode, hrun, hcur, ?_, ?_⟩
      · simpa using hlen
      · exact World.not_returned_set _ _ _ hst (by simp)
  | destructor => simp [running_guard] at hg
  | clock ticks =>
    simp only [World.step, Except.ok.injEq] at hs
    subst hs
    exact ⟨hmode, hrun, hcur, hlen, hst⟩

/-- After `start`, the thread count stays at or above the initial size. -/
theorem World.floor_step (n : SizeT) (w w' : World El) (e : Event El)
    (h : w.pool.m_init_thread_size = n ∧ (n.val : Int) ≤ w.pool.m_cur_thread_size)
    (hg : no_restart_guard w e = true) (hs : w.step e = .ok w') :
    w'.pool.m_init_thread_size = n ∧ (n.val : Int) ≤ w'.pool.m_cur_thread_size := by
  obtain ⟨hinit, hle⟩ := h
  cases e with
  | set_mode mode =>
    simp only [World.step, Except.ok.injEq] at hs
    subst hs
    simp only [ThreadPool.set_mode]
    split <;> exact ⟨hinit, hle⟩
  | set_task_que_max_thresh_hold t =>
    simp only [World.step, Except.ok.injEq] at hs
    subst hs
    simp only [ThreadPool.set_task_que_max_thresh_hold]
    split <;> exact ⟨hinit, hle⟩
  | set_thread_size_thresh_hold t =>
    simp only [World.step, Except.ok.injEq] at hs
    subst hs
    simp only [ThreadPool.set_thread_size_thresh_hold]
    split
    · exact ⟨hinit, hle⟩
    · split <;> exact ⟨hinit, hle⟩
  | start m => simp [no_restart_guard] at hg
  | make_task body =>
    simp only [World.step, Except.ok.injEq] at hs
    subst hs
    exact ⟨hinit, hle⟩
  | submit_task sp =>
    simp only [World.step] at hs
    split at hs
    · cases hs
    · rename_i w1 r hsub
      cases hs
      rcases World.submit_task_ok w w' sp r hsub with
        ⟨_, hn⟩ | ⟨_, hn⟩ | ⟨_, _, _, w2, hsp, hn⟩
      · rw [(Result.new_pool _ _ _ _ _ hn).1]
        exact ⟨hinit, hle⟩
      · rw [(Result.new_pool _ _ _ _ _ hn).1]
        exact ⟨hinit, hle⟩
      · rw [(Result.new_pool _ _ _ _ _ hn).1, hsp.init_eq, hsp.cur_eq]
        refine ⟨hinit, ?_⟩
        show (n.val : Int) ≤ w.pool.m_cur_thread_size + ((1 : Nat) : Int)
        omega
  | result_get r =>
    simp only [World.step, Except.ok.injEq] at hs
    subst hs
    rw [(World.result_get_pool w r).1]
    exact ⟨hinit, hle⟩
  | thread_func i b =>
    simp only [World.step] at hs
    rcases World.thread_func_ok w w' i b hs with
      hw | ⟨wk, _, _, _, hw⟩ | ⟨wk, _, _, _, _, _, _, _, hgt, hw⟩ |
      ⟨wk, task, rest, _, _, _, hq, hw⟩ | ⟨wk, task, t, _, _, _, _, hw⟩ |
      ⟨wk, task, t, r, _, _, _, _, hw⟩ |
      ⟨wk, task, t, r, any, res, _, _, _, _, _, _, hw⟩
    · subst hw; exact ⟨hinit, hle⟩
    · subst hw; exact ⟨hinit, hle⟩
    · subst hw
      refine ⟨hinit, ?_⟩
      have h0 : (0 : Int) ≤ w.pool.m_cur_thread_size := by omega
      have := toSizeT_gt_imp _ _ h0 hgt
      rw [hinit] at this
      exact this
    · subst hw; exact ⟨hinit, hle⟩
    · subst hw; exact ⟨hinit, hle⟩
    · subst hw; exact ⟨hinit, hle⟩
    · subst hw; exact ⟨hinit, hle⟩
  | destructor =>
    simp only [World.step, Except.ok.injEq] at hs
    subst hs
    exact ⟨hinit, hle⟩
  | clock ticks =>
    simp only [World.step, Except.ok.injEq] at hs
    subst hs
    exact ⟨hinit, hle⟩

/-- What an accepted `submit_task` leaves behind: the task is at the back of the queue,
its result pointer refers to the returned `Result`, which is new and valid. -/
theorem World.submit_task_accepted (w w1 : World El) (sp r : Nat) (t : Task El)
    (ht : w.tasks[sp]? = some t)
    (hroom : w.pool.m_task_que.length < w.pool.m_task_que_max_thresh_hold.val)
    (hsub : w.submit_task sp = .ok (w1, r)) :
    w1.pool.m_task_que = w.pool.m_task_que ++ [sp] ∧
    w1.tasks[sp]? = some { t with m_result := some r } ∧
    w1.results[r]? = some ⟨Any.empty, Semaphore.new 0, sp, true⟩ := by
  have hlt : sp < w.tasks.length := (List.getElem?_eq_some.mp ht).1
  have key : ∀ w0 : World El, w0.tasks = w.tasks →
      w0.pool.m_task_que = w.pool.m_task_que ++ [sp] →
      Result.new w0 sp true = .ok (w1, r) →
      w1.pool.m_task_que = w.pool.m_task_que ++ [sp] ∧
      w1.tasks[sp]? = some { t with m_result := some r } ∧
      w1.results[r]? = some ⟨Any.empty, Semaphore.new 0, sp, true⟩ := by
    intro w0 ht0 hq0 hn
    obtain ⟨_, hr, hw⟩ := Result.new_ok w0 w1 sp r true hn
    subst hw
    subst hr
    refine ⟨hq0, ?_, ?_⟩
    · show (Task.set_result w0.tasks sp w0.results.length)[sp]? = _
      rw [ht0]
      simp only [Task.set_result, ht]
      simp [hlt]
    · show (w0.results ++ [_])[w0.results.length]? = _
      simp
  rcases World.submit_task_ok w w1 sp r hsub with
    ⟨hfull, _⟩ | ⟨_, hn⟩ | ⟨_, _, _, w2, hsp, hn⟩
  · omega
  · exact key
      { w with pool := { w.pool with
                          m_task_que := w.pool.m_task_que ++ [sp]
                          m_task_size := (w.pool.m_task_size + 1) % 2 ^ 32 } }
      rfl rfl hn
  · exact key w2 hsp.tasks_eq hsp.que_eq hn

/-! ### Result pointers stay in the store -/

/-- C2: when the queue holds at least as many tasks as the capacity at the end of the
admission wait, `submit_task` of a task object returns the address of a `Result` marked
invalid for that task; the pool (queue, task count, current and idle worker counts,
registry, every other member), the worker threads, the id counter and the log of
executed bodies are unchanged, and so is the body of every task object. -/
theorem C2_rejected_submit_changes_nothing (w : World El) (sp : Nat) (t : Task El)
    (ht : w.tasks[sp]? = some t)
    (hfull : w.pool.m_task_que_max_thresh_hold.val ≤ w.pool.m_task_que.length) :
    ∃ w' r res, w.submit_task sp = .ok (w', r) ∧
      w'.results[r]? = some res ∧ res.m_is_valid = false ∧ res.m_task = sp ∧
      w'.pool = w.pool ∧ w'.executed = w.executed ∧ w'.workers = w.workers ∧
      w'.m_generate_id = w.m_generate_id ∧
      w'.tasks.map Task.run = w.tasks.map Task.run := by
  have hnot : ¬ w.pool.m_task_que.length < w.pool.m_task_que_max_thresh_hold.val := by omega
  have hlt : sp < w.tasks.length := by
    rcases List.getElem?_eq_some.mp ht with ⟨h, _⟩
    exact h
  refine ⟨{ w with
             results := w.results ++ [⟨Any.empty, Semaphore.new 0, sp, false⟩]
             tasks := Task.set_result w.tasks sp w.results.length },
          w.results.length, ⟨Any.empty, Semaphore.new 0, sp, false⟩, ?_, ?_, rfl, rfl, rfl,
          rfl, rfl, rfl, ?_⟩
  · simp only [World.submit_task, hnot, if_false, Result.new, ht]
  · simp
  · simp only [Task.set_result, ht]
    apply List.ext_getElem?
    intro n
    by_cases hn : sp = n
    · subst hn
      have hget : w.tasks[sp] = t := by
        rcases List.getElem?_eq_some.mp ht with ⟨_, h⟩
        exact h
      simp [List.getElem?_map, ht, hlt, hget]
    · simp [List.getElem?_map, List.getElem?_set, hn]

/-- C2, with capacity 1 and one task already queued: the second submission is rejected. -/
theorem C2_rejected_submit_changes_nothing_witness :
    ∃ w' r res,
      ((World.fresh 0 0 : World UserEl).after
          [.set_task_que_max_thresh_hold 1, .start 1, .make_task (MyTask 1),
           .make_task (MyTask 2), .submit_task 0]).submit_task 1 = .ok (w', r) ∧
      w'.results[r]? = some res ∧ res.m_is_valid = false ∧ res.m_task = 1 ∧
      w'.pool = ((World.fresh 0 0 : World UserEl).after
          [.set_task_que_max_thresh_hold 1, .start 1, .make_task (MyTask 1),
           .make_task (MyTask 2), .submit_task 0]).pool ∧
      w'.executed = ((World.fresh 0 0 : World UserEl).after
          [.set_task_que_max_thresh_hold 1, .start 1, .make_task (MyTask 1),
           .make_task (MyTask 2), .submit_task 0]).executed ∧
      w'.workers = ((World.fresh 0 0 : World UserEl).after
          [.set_task_que_max_thresh_hold 1, .start 1, .make_task (MyTask 1),
           .make_task (MyTask 2), .submit_task 0]).workers ∧
      w'.m_generate_id = ((World.fresh 0 0 : World UserEl).after
          [.set_task_que_max_thresh_hold 1, .start 1, .make_task (MyTask 1),
           .make_task (MyTask 2), .submit_task 0]).m_generate_id ∧
      w'.tasks.map Task.run = ((World.fresh 0 0 : World UserEl).after
          [.set_task_que_max_thresh_hold 1, .start 1, .make_task (MyTask 1),
           .make_task (MyTask 2), .submit_task 0]).tasks.map Task.run :=
  C2_rejected_submit_changes_nothing
    ((World.fresh 0 0 : World UserEl).after
      [.set_task_que_max_thresh_hold 1, .start 1, .make_task (MyTask 1),
       .make_task (MyTask 2), .submit_task 0])
    1 ⟨MyTask 2, none⟩ rfl (by decide)

/-- C3 fails as stated: in `rejected_next_to_accepted` result 0 belongs to an accepted
task whose body was executed, result 1 to a rejected one, and `get` yields the same
`Any` (the `const char*` `""`) on both. -/
theorem C3_rejected_get_equals_an_accepted_get :
    rejected_next_to_accepted.results.map Result.m_is_valid = [true, false] ∧
    rejected_next_to_accepted.executed = [0] ∧
    (rejected_next_to_accepted.results[0]?.bind Result.get).map Prod.fst
      = some (Any.of CType.const_char_ptr "") ∧
    (rejected_next_to_accepted.results[1]?.bind Result.get).map Prod.fst
      = some (Any.of CType.const_char_ptr "") :=
  ⟨rfl, rfl, rfl, rfl⟩

/-- C3, amended: `get` on a `Result` marked invalid returns at once, whatever the state
of its semaphore, leaves the object as it is, and yields the `const char*` `""`.
`cast_<T>` of that value throws for every `T` other than `const char*`, and it differs
from every value of such a `T`; for `T = const char*` the cast succeeds with `""`. -/
theorem C3_rejected_get_is_immediate_empty_string [DecidableEq U] (res : Result El)
    (hinvalid : res.m_is_valid = false) :
    res.get = some (Any.of CType.const_char_ptr "", res) ∧
    (∀ T : CType U, T ≠ CType.const_char_ptr →
      (Any.of CType.const_char_ptr "" : Any El).cast_ T = .error "type is unmatch!" ∧
      ∀ v : CType.El El T, (Any.of T v : Any El) ≠ Any.of CType.const_char_ptr "") ∧
    (Any.of CType.const_char_ptr "" : Any El).cast_ CType.const_char_ptr = .ok "" := by
  refine ⟨?_, ?_, ?_⟩
  · simp [Result.get, hinvalid]
  · intro T hT
    refine ⟨?_, ?_⟩
    · simp [Any.of, Any.cast_, Ne.symm hT]
    · intro v h
      apply hT
      simp only [Any.of, Any.mk.injEq, Option.some.injEq, Sigma.mk.inj_iff] at h
      exact h.1
  · simp [Any.of, Any.cast_]

/-- C3 amended, on the rejected result of `rejected_next_to_accepted`. -/
theorem C3_rejected_get_is_immediate_empty_string_witness :
    (⟨Any.empty, Semaphore.new 0, 1, false⟩ : Result UserEl).get
      = some (Any.of CType.const_char_ptr "", ⟨Any.empty, Semaphore.new 0, 1, false⟩) ∧
    (Any.of CType.const_char_ptr "" : Any UserEl).cast_ (CType.user UserType.uLong)
      = .error "type is unmatch!" ∧
    (Any.of (CType.user UserType.uLong) (0 : Nat) : Any UserEl)
      ≠ Any.of CType.const_char_ptr "" ∧
    (Any.of CType.const_char_ptr "" : Any UserEl).cast_ CType.const_char_ptr = .ok "" :=
  ⟨(C3_rejected_get_is_immediate_empty_string ⟨Any.empty, Semaphore.new 0, 1, false⟩ rfl).1,
   ((C3_rejected_get_is_immediate_empty_string
      (⟨Any.empty, Semaphore.new 0, 1, false⟩ : Result UserEl) rfl).2.1
      (CType.user UserType.uLong) (by decide)).1,
   ((C3_rejected_get_is_immediate_empty_string
      (⟨Any.empty, Semaphore.new 0, 1, false⟩ : Result UserEl) rfl).2.1
      (CType.user UserType.uLong) (by decide)).2 (0 : Nat),
   (C3_rejected_get_is_immediate_empty_string
      (⟨Any.empty, Semaphore.new 0, 1, false⟩ : Result UserEl) rfl).2.2⟩

/-- C4 fails as stated: with one worker, a task whose body throws is submitted, taken
and executed; the exception leaves `thread_func` and the run ends there. -/
theorem C4_throwing_body_leaves_thread_func :
    (World.fresh 0 0 : World UserEl).run
      [.start 1, .make_task ThrowingTask, .submit_task 0,
       .thread_func 0 false, .thread_func 0 false, .thread_func 0 false]
      = .error (Fault.uncaught "task failed") :=
  rfl

/-- C4, amended: when a worker executes a task whose result pointer is set and whose
body throws, neither `Task::exec` nor `thread_func` catches the exception: it leaves
`thread_func`, nothing is published and the worker does not go back to its loop. -/
theorem C4_exception_propagates (w : World El) (i sp r : Nat) (b : Bool) (wk : Worker)
    (t : Task El) (what : String)
    (hwk : w.workers[i]? = some wk) (hst : wk.state = WorkerState.executing sp)
    (ht : w.tasks[sp]? = some t) (hr : t.m_result = some r) (hrun : t.run = .error what) :
    Task.exec w sp = .error (Fault.uncaught what) ∧
    w.thread_func i b = .error (Fault.uncaught what) := by
  have hend : ∀ ro : Option Nat, Task.exec_end w sp ro = .error (Fault.uncaught what) := by
    intro ro
    simp only [Task.exec_end, ht, hrun]
  have hexec : Task.exec w sp = .error (Fault.uncaught what) := by
    simp only [Task.exec, Task.exec_begin, ht, hr, hend]
  exact ⟨hexec, by simp only [World.thread_func, hwk, hst, hend]⟩

/-- C4 amended, on the run of the counterexample up to the worker entering `exec`. -/
theorem C4_exception_propagates_witness :
    Task.exec ((World.fresh 0 0 : World UserEl).after
        [.start 1, .make_task ThrowingTask, .submit_task 0, .thread_func 0 false,
         .thread_func 0 false]) 0
      = .error (Fault.uncaught "task failed") ∧
    ((World.fresh 0 0 : World UserEl).after
        [.start 1, .make_task ThrowingTask, .submit_task 0, .thread_func 0 false,
         .thread_func 0 false]).thread_func 0 false
      = .error (Fault.uncaught "task failed") :=
  C4_exception_propagates
    ((World.fresh 0 0 : World UserEl).after
      [.start 1, .make_task ThrowingTask, .submit_task 0, .thread_func 0 false,
       .thread_func 0 false])
    0 0 0 false ⟨0, 0, WorkerState.executing 0, some 0⟩ ⟨ThrowingTask, some 0⟩ "task failed"
    rfl rfl rfl rfl rfl

/-- C6 fails as stated: two tasks are submitted to a new pool, then
`set_task_que_max_thresh_hold(1)` and `start(1)`; the pool runs with two tasks in a queue
of capacity one. -/
theorem C6_queue_exceeds_capacity :
    capacity_lowered_below_queue.pool.m_is_pool_running = true ∧
    capacity_lowered_below_queue.pool.m_task_que.length = 2 ∧
    capacity_lowered_below_queue.pool.m_task_que_max_thresh_hold = 1 ∧
    ¬ (capacity_lowered_below_queue.pool.m_task_que.length
        ≤ capacity_lowered_below_queue.pool.m_task_que_max_thresh_hold.val) :=
  ⟨rfl, rfl, rfl, by decide⟩

/-- C6, amended: along every run from a new pool in which each call of
`set_task_que_max_thresh_hold` that takes effect passes a threshold not below the current
length of the queue, the queue never holds more tasks than the capacity. -/
theorem C6_queue_within_capacity (g t : Int) (es : List (Event El)) (w : World El)
    (hguard : World.guarded capacity_guard (World.fresh g t : World El) es = true)
    (hrun : (World.fresh g t : World El).run es = .ok w) :
    w.pool.m_task_que.length ≤ w.pool.m_task_que_max_thresh_hold.val :=
  World.run_invariant
    (fun w => w.pool.m_task_que.length ≤ w.pool.m_task_que_max_thresh_hold.val) capacity_guard
    (fun w e w' hP hg hs => World.queue_bound_step w w' e hP hg hs) es _ w
    (by simp [World.fresh, ThreadPool.new]) hguard hrun

/-- C6 amended, on a run that fills a queue of capacity 2: the third submission is
rejected and the queue holds two tasks. -/
theorem C6_queue_within_capacity_witness :
    ((World.fresh 0 0 : World UserEl).after
        [.set_task_que_max_thresh_hold 2, .start 1, .make_task (MyTask 1),
         .submit_task 0, .submit_task 0, .submit_task 0]).pool.m_task_que.length
      ≤ ((World.fresh 0 0 : World UserEl).after
        [.set_task_que_max_thresh_hold 2, .start 1, .make_task (MyTask 1),
         .submit_task 0, .submit_task 0, .submit_task 0]).pool.m_task_que_max_thresh_hold.val :=
  C6_queue_within_capacity 0 0
    [.set_task_que_max_thresh_hold 2, .start 1, .make_task (MyTask 1),
     .submit_task 0, .submit_task 0, .submit_task 0]
    ((World.fresh 0 0 : World UserEl).after
        [.set_task_que_max_thresh_hold 2, .start 1, .make_task (MyTask 1),
         .submit_task 0, .submit_task 0, .submit_task 0])
    rfl rfl

/-- C7 fails as stated: in cached mode, `set_thread_size_thresh_hold(1)` then `start(2)`
leaves the pool running with two threads over a threshold of one. -/
theorem C7_started_above_threshold :
    started_above_threshold.pool.m_pool_mode = PoolMode.MODE_CACHED ∧
    started_above_threshold.pool.m_is_pool_running = true ∧
    started_above_threshold.pool.m_cur_thread_size = 2 ∧
    started_above_threshold.pool.m_thread_size_thresh_hold.val = 1 ∧
    ¬ (started_above_threshold.pool.m_cur_thread_size
        ≤ started_above_threshold.pool.m_thread_size_thresh_hold.val) :=
  ⟨rfl, rfl, rfl, rfl, by decide⟩

/-- C7, amended: along every run from a new pool in which `start(n)` is only called
with room for `n` more threads under the threshold, and each call of
`set_thread_size_thresh_hold` that takes effect passes a threshold not below the current
thread count, the current thread count never exceeds the threshold: `submit_task` adds a
thread only while the count is below it, and no turn of a worker raises the count. -/
theorem C7_threads_within_threshold (g t : Int) (es : List (Event El)) (w : World El)
    (hguard : World.guarded threshold_guard (World.fresh g t : World El) es = true)
    (hrun : (World.fresh g t : World El).run es = .ok w) :
    w.pool.m_cur_thread_size ≤ w.pool.m_thread_size_thresh_hold.val :=
  World.run_invariant
    (fun w => w.pool.m_cur_thread_size ≤ w.pool.m_thread_size_thresh_hold.val)
    threshold_guard
    (fun w e w' hP hg hs => World.thread_bound_step w w' e hP hg hs) es _ w
    (by simp [World.fresh, ThreadPool.new]) hguard hrun

/-- C7 amended, on a cached pool with threshold 2 started with one thread: the second of
three submissions adds a thread, the third finds the count at the threshold and adds
none. -/
theorem C7_threads_within_threshold_witness :
    ((World.fresh 0 0 : World UserEl).after
        [.set_mode .MODE_CACHED, .set_thread_size_thresh_hold 2, .start 1,
         .make_task (MyTask 1), .submit_task 0, .submit_task 0,
         .submit_task 0]).pool.m_cur_thread_size
      ≤ ((World.fresh 0 0 : World UserEl).after
        [.set_mode .MODE_CACHED, .set_thread_size_thresh_hold 2, .start 1,
         .make_task (MyTask 1), .submit_task 0, .submit_task 0,
         .submit_task 0]).pool.m_thread_size_thresh_hold.val :=
  C7_threads_within_threshold 0 0
    [.set_mode .MODE_CACHED, .set_thread_size_thresh_hold 2, .start 1,
     .make_task (MyTask 1), .submit_task 0, .submit_task 0, .submit_task 0]
    ((World.fresh 0 0 : World UserEl).after
        [.set_mode .MODE_CACHED, .set_thread_size_thresh_hold 2, .start 1,
         .make_task (MyTask 1), .submit_task 0, .submit_task 0, .submit_task 0])
    rfl rfl

/-- C8 fails as stated: in `fixed_pool_started_after_growth` the pool is in fixed mode and
running after `start(1)`, and its current thread count is 2: the thread that
`submit_task` created in cached mode before `start` is counted too. -/
theorem C8_fixed_pool_counts_earlier_threads :
    fixed_pool_started_after_growth.pool.m_pool_mode = PoolMode.MODE_FIXED ∧
    fixed_pool_started_after_growth.pool.m_is_pool_running = true ∧
    fixed_pool_started_after_growth.pool.m_init_thread_size.val = 1 ∧
    fixed_pool_started_after_growth.pool.m_cur_thread_size = 2 ∧
    ¬ (fixed_pool_started_after_growth.pool.m_cur_thread_size = 1) :=
  ⟨rfl, rfl, rfl, rfl, by decide⟩

/-- C8, amended: in fixed mode, when `start(n)` is called on a pool that has no thread yet, then
after every sequence of further transitions of the running pool (anything but another
`start` or the destructor) the current thread count is `n`, there are exactly the `n`
worker threads `start` created, and none of them has returned. -/
theorem C8_fixed_pool_keeps_its_size (w0 w1 w : World El) (n : SizeT) (es : List (Event El))
    (hmode : w0.pool.m_pool_mode = PoolMode.MODE_FIXED)
    (hcur : w0.pool.m_cur_thread_size = 0) (hnone : w0.workers = [])
    (hstart : w0.start n = .ok w1)
    (hguard : World.guarded running_guard w1 es = true)
    (hrun : w1.run es = .ok w) :
    w.pool.m_cur_thread_size = n.val ∧ w.workers.length = n.val ∧
    ∀ wk ∈ w.workers, wk.state ≠ WorkerState.returned := by
  have hsp := World.start_ok w0 w1 n hstart
  have h1 : w1.FixedAt n.val := by
    obtain ⟨l, hl, hlen, hwait⟩ := hsp.workers_eq
    refine ⟨?_, ?_, ?_, ?_, ?_⟩
    · rw [hsp.mode_eq]; exact hmode
    · rw [hsp.running_eq]
    · rw [hsp.cur_eq]
      show w0.pool.m_cur_thread_size + (n.val : Int) = n.val
      rw [hcur]; simp
    · rw [hl]
      show (w0.workers ++ l).length = n.val
      rw [hnone]; simpa using hlen
    · intro wk hwk
      rw [hl] at hwk
      have hwk' : wk ∈ w0.workers ++ l := hwk
      rw [hnone] at hwk'
      simp only [List.nil_append] at hwk'
      rw [hwait wk hwk']
      exact fun h => by cases h
  have h := World.run_invariant (World.FixedAt n.val) running_guard
    (fun w e w' hP hg hs => World.FixedAt.preserved_by_running_step hP hg hs) es w1 w h1 hguard hrun
  exact ⟨h.2.2.1, h.2.2.2.1, h.2.2.2.2⟩

/-- C8, on a pool started with 2 threads: two tasks are submitted, taken and executed, a
worker waits through an idle minute, a third task is submitted. -/
theorem C8_fixed_pool_keeps_its_size_witness :
    ((World.fresh 0 0 : World UserEl).after
        [.start 2, .make_task (MyTask 1), .submit_task 0, .submit_task 0,
         .thread_func 0 false, .thread_func 1 false, .thread_func 0 false,
         .clock 61000000000, .thread_func 0 true, .submit_task 0]).pool.m_cur_thread_size
      = (2 : SizeT).val ∧
    ((World.fresh 0 0 : World UserEl).after
        [.start 2, .make_task (MyTask 1), .submit_task 0, .submit_task 0,
         .thread_func 0 false, .thread_func 1 false, .thread_func 0 false,
         .clock 61000000000, .thread_func 0 true, .submit_task 0]).workers.length
      = (2 : SizeT).val :=
  ⟨(C8_fixed_pool_keeps_its_size (World.fresh 0 0 : World UserEl)
      ((World.fresh 0 0 : World UserEl).after [.start 2])
      ((World.fresh 0 0 : World UserEl).after
        [.start 2, .make_task (MyTask 1), .submit_task 0, .submit_task 0,
         .thread_func 0 false, .thread_func 1 false, .thread_func 0 false,
         .clock 61000000000, .thread_func 0 true, .submit_task 0])
      2
      [.make_task (MyTask 1), .submit_task 0, .submit_task 0,
       .thread_func 0 false, .thread_func 1 false, .thread_func 0 false,
       .clock 61000000000, .thread_func 0 true, .submit_task 0]
      rfl rfl rfl rfl rfl rfl).1,
   (C8_fixed_pool_keeps_its_size (World.fresh 0 0 : World UserEl)
      ((World.fresh 0 0 : World UserEl).after [.start 2])
      ((World.fresh 0 0 : World UserEl).after
        [.start 2, .make_task (MyTask 1), .submit_task 0, .submit_task 0,
         .thread_func 0 false, .thread_func 1 false, .thread_func 0 false,
         .clock 61000000000, .thread_func 0 true, .submit_task 0])
      2
      [.make_task (MyTask 1), .submit_task 0, .submit_task 0,
       .thread_func 0 false, .thread_func 1 false, .thread_func 0 false,
       .clock 61000000000, .thread_func 0 true, .submit_task 0]
      rfl rfl rfl rfl rfl rfl).2.1⟩

/-- C9, the code at the failing input: in `idle_worker_retired_then_destroyed` both
workers have returned, yet the registry still holds the entry of worker 1, which
returned on its idle timeout without `m_threads.erase(threadid)`; the destructor's wait
condition is false and nothing is left to make it true. -/
theorem C9_retired_worker_stays_registered :
    idle_worker_retired_then_destroyed.workers.map Worker.state
      = [WorkerState.returned, WorkerState.returned] ∧
    idle_worker_retired_then_destroyed.pool.m_threads = [(1, some ⟨1⟩)] ∧
    idle_worker_retired_then_destroyed.pool.m_is_pool_running = false ∧
    idle_worker_retired_then_destroyed.exit_cond = false :=
  ⟨rfl, rfl, rfl, rfl⟩

/-- C10: in a running pool whose current thread count is at most the initial size, a turn
of a waiting worker never makes it return, whatever the clock and the outcome of its
wait; and after `start(n)` on a pool with a non-negative count, no sequence of further
transitions other than another `start` brings the current thread count below `n`. -/
theorem C10_idle_timeout_respects_floor :
    (∀ (w : World El) (i : Nat) (b : Bool) (wk : Worker),
      w.pool.m_is_pool_running = true → 0 ≤ w.pool.m_cur_thread_size →
      w.pool.m_cur_thread_size ≤ w.pool.m_init_thread_size.val →
      w.workers[i]? = some wk → wk.state = WorkerState.waiting →
      ∃ w' wk', w.thread_func i b = .ok w' ∧ w'.workers[i]? = some wk' ∧
        wk'.state ≠ WorkerState.returned ∧
        w'.pool.m_cur_thread_size = w.pool.m_cur_thread_size) ∧
    (∀ (w0 w1 w : World El) (n : SizeT) (es : List (Event El)),
      0 ≤ w0.pool.m_cur_thread_size → w0.start n = .ok w1 →
      World.guarded no_restart_guard w1 es = true → w1.run es = .ok w →
      (n.val : Int) ≤ w.pool.m_cur_thread_size) := by
  refine ⟨?_, ?_⟩
  · intro w i b wk hrun h0 hle hwk hst
    have hlt : i < w.workers.length := (List.getElem?_eq_some.mp hwk).1
    have hnot : ¬ toSizeT w.pool.m_cur_thread_size > w.pool.m_init_thread_size.val := by
      intro hgt
      have := toSizeT_gt_imp _ _ h0 hgt
      omega
    cases hq : w.pool.m_task_que with
    | nil =>
      refine ⟨w, wk, ?_, hwk, (by rw [hst]; exact fun h => by cases h), rfl⟩
      simp only [World.thread_func, hwk, hst, hrun, hq, hnot, and_false]
      simp
    | cons task rest =>
      have hstep : w.thread_func i b = .ok
          { w with
             pool := { w.pool with
                        m_idle_thread_size := w.pool.m_idle_thread_size - 1
                        m_task_que := rest
                        m_task_size := (w.pool.m_task_size + 2 ^ 32 - 1) % 2 ^ 32 }
             workers := w.workers.set i { wk with state := WorkerState.taken task } } := by
        simp only [World.thread_func, hwk, hst, hrun, hq]
        rfl
      refine ⟨_, { wk with state := WorkerState.taken task }, hstep, ?_,
        (fun h => by cases h), rfl⟩
      simp [hlt]
  · intro w0 w1 w n es h0 hstart hguard hrun
    have hsp := World.start_ok w0 w1 n hstart
    have h1 : w1.pool.m_init_thread_size = n ∧ (n.val : Int) ≤ w1.pool.m_cur_thread_size := by
      refine ⟨?_, ?_⟩
      · rw [hsp.init_eq]
      · rw [hsp.cur_eq]
        show (n.val : Int) ≤ w0.pool.m_cur_thread_size + (n.val : Int)
        omega
    exact (World.run_invariant
      (fun w => w.pool.m_init_thread_size = n ∧ (n.val : Int) ≤ w.pool.m_cur_thread_size)
      no_restart_guard (fun w e w' hP hg hs => World.floor_step n w w' e hP hg hs)
      es w1 w h1 hguard hrun).2

/-- C10, on `two_idle_workers` (count 2, initial size 2, five minutes idle): the timed-out
wait of worker 0 does not make it return; and on the run of
`idle_worker_retired_then_destroyed` after `start(1)` the count ends at 1. -/
theorem C10_idle_timeout_respects_floor_witness :
    (∃ w' wk', two_idle_workers.thread_func 0 true = .ok w' ∧ w'.workers[0]? = some wk' ∧
        wk'.state ≠ WorkerState.returned ∧
        w'.pool.m_cur_thread_size = two_idle_workers.pool.m_cur_thread_size) ∧
    (((1 : SizeT).val : Int) ≤ idle_worker_retired_then_destroyed.pool.m_cur_thread_size) :=
  ⟨(@C10_idle_timeout_respects_floor UserType UserEl).1 two_idle_workers 0 true
      ⟨0, 0, WorkerState.waiting, none⟩ rfl (by decide) (by decide) rfl rfl,
   (@C10_idle_timeout_respects_floor UserType UserEl).2
      ((World.fresh 0 0 : World UserEl).after [.set_mode .MODE_CACHED])
      ((World.fresh 0 0 : World UserEl).after [.set_mode .MODE_CACHED, .start 1])
      idle_worker_retired_then_destroyed 1
      [.make_task (MyTask 1), .submit_task 0,
       .thread_func 0 false, .submit_task 0, .thread_func 1 false, .thread_func 1 false,
       .thread_func 1 false, .thread_func 0 false, .thread_func 0 false,
       .clock 60000000000, .thread_func 1 true, .destructor, .thread_func 0 false]
      (by decide) rfl rfl rfl⟩

/-! ### The idle and current thread counters -/

theorem World.Counted.of_eq {w w' : World El} (h : w.Counted)
    (hi : w'.pool.m_idle_thread_size = w.pool.m_idle_thread_size)
    (hc : w'.pool.m_cur_thread_size = w.pool.m_cur_thread_size)
    (hw : w'.workers = w.workers) : w'.Counted := by
  simp only [World.Counted, World.executing_count, World.waiting_count, hi, hc, hw]
  exact h

theorem World.counts_append_waiting (ws l : List Worker)
    (hl : ∀ wk ∈ l, wk.state = WorkerState.waiting) :
    (ws ++ l).countP (fun wk => WorkerState.is_executing wk.state)
        = ws.countP (fun wk => WorkerState.is_executing wk.state) ∧
    (ws ++ l).countP (fun wk => decide (wk.state = WorkerState.waiting))
        = ws.countP (fun wk => decide (wk.state = WorkerState.waiting)) + l.length := by
  have h1 : l.countP (fun wk => WorkerState.is_executing wk.state) = 0 := by
    rw [List.countP_eq_zero]
    intro wk hwk
    simp [hl wk hwk, WorkerState.is_executing]
  have h2 : l.countP (fun wk => decide (wk.state = WorkerState.waiting)) = l.length := by
    rw [List.countP_eq_length]
    intro wk hwk
    simp [hl wk hwk]
  rw [List.countP_append, List.countP_append, h1, h2]
  exact ⟨by omega, rfl⟩

theorem Spawned.counted {n : Nat} {w w' : World El} (hs : Spawned n w w')
    (h : w.Counted) : w'.Counted := by
  obtain ⟨l, e, hlen, hl⟩ := hs.workers_eq
  obtain ⟨h1, h2⟩ := World.counts_append_waiting w.workers l hl
  obtain ⟨ha, hb⟩ := h
  simp only [World.Counted, World.executing_count, World.waiting_count] at ha hb ⊢
  rw [e, h1, h2, hs.idle_eq, hs.cur_eq, hlen]
  constructor
  · omega
  · push_cast
    omega

theorem World.counts_set (ws : List Worker) (i : Nat) (wk wk' : Worker)
    (hwk : ws[i]? = some wk) :
    (ws.set i wk').countP (fun x => WorkerState.is_executing x.state)
        + (if WorkerState.is_executing wk.state then 1 else 0)
      = ws.countP (fun x => WorkerState.is_executing x.state)
        + (if WorkerState.is_executing wk'.state then 1 else 0) ∧
    (ws.set i wk').countP (fun x => decide (x.state = WorkerState.waiting))
        + (if wk.state = WorkerState.waiting then 1 else 0)
      = ws.countP (fun x => decide (x.state = WorkerState.waiting))
        + (if wk'.state = WorkerState.waiting then 1 else 0) := by
  have h1 := countP_set_eq (fun x : Worker => WorkerState.is_executing x.state) ws i wk wk' hwk
  have h2 := countP_set_eq (fun x : Worker => decide (x.state = WorkerState.waiting))
    ws i wk wk' hwk
  exact ⟨h1, by simpa using h2⟩

theorem WorkerState.is_executing_waiting :
    WorkerState.is_executing WorkerState.waiting = false := rfl

theorem WorkerState.is_executing_returned :
    WorkerState.is_executing WorkerState.returned = false := rfl

theorem WorkerState.is_executing_executing (task : Nat) :
    WorkerState.is_executing (WorkerState.executing task) = true := rfl

theorem WorkerState.is_executing_taken (task : Nat) :
    WorkerState.is_executing (WorkerState.taken task) = true := rfl

/-- A turn of a worker keeps the meaning of the counters. -/
theorem World.Counted.preserved_by_worker_turn {w w' : World El} {i : Nat} {b : Bool}
    (h : w.Counted) (hs : w.thread_func i b = .ok w') : w'.Counted := by
  obtain ⟨ha, hb⟩ := h
  simp only [World.executing_count, World.waiting_count] at ha hb
  rcases World.thread_func_ok w w' i b hs with
    hw | ⟨wk, hwk, hst, _, hw⟩ | ⟨wk, hwk, hst, _, _, _, _, _, _, hw⟩ |
    ⟨wk, task, rest, hwk, hst, _, _, hw⟩ | ⟨wk, task, t, hwk, hst, _, _, hw⟩ |
    ⟨wk, task, t, r, hwk, hst, _, _, hw⟩ |
    ⟨wk, task, t, r, any, res, hwk, hst, _, _, _, _, hw⟩
  · subst hw; exact ⟨ha, hb⟩
  · subst hw
    obtain ⟨h1, h2⟩ := World.counts_set w.workers i wk
      { wk with state := WorkerState.returned } hwk
    simp only [hst, WorkerState.is_executing_waiting, WorkerState.is_executing_returned,
      WorkerState.is_executing_executing, WorkerState.is_executing_taken] at h1 h2
    simp only [World.Counted, World.executing_count, World.waiting_count]
    simp at h1 h2
    constructor <;> omega
  · subst hw
    obtain ⟨h1, h2⟩ := World.counts_set w.workers i wk
      { wk with state := WorkerState.returned } hwk
    simp only [hst, WorkerState.is_executing_waiting, WorkerState.is_executing_returned,
      WorkerState.is_executing_executing, WorkerState.is_executing_taken] at h1 h2
    simp only [World.Counted, World.executing_count, World.waiting_count]
    simp at h1 h2
    constructor <;> omega
  · subst hw
    obtain ⟨h1, h2⟩ := World.counts_set w.workers i wk
      { wk with state := WorkerState.taken task } hwk
    simp only [hst, WorkerState.is_executing_waiting, WorkerState.is_executing_returned,
      WorkerState.is_executing_executing, WorkerState.is_executing_taken] at h1 h2
    simp only [World.Counted, World.executing_count, World.waiting_count]
    simp at h1 h2
    constructor <;> omega
  · subst hw
    obtain ⟨h1, h2⟩ := World.counts_set w.workers i wk
      { wk with state := WorkerState.waiting, last_time := w.now } hwk
    simp only [hst, WorkerState.is_executing_waiting, WorkerState.is_executing_returned,
      WorkerState.is_executing_executing, WorkerState.is_executing_taken] at h1 h2
    simp only [World.Counted, World.executing_count, World.waiting_count]
    simp at h1 h2
    constructor <;> omega
  · subst hw
    obtain ⟨h1, h2⟩ := World.counts_set w.workers i wk
      { wk with state := WorkerState.executing task, result := some r } hwk
    simp only [hst, WorkerState.is_executing_waiting, WorkerState.is_executing_returned,
      WorkerState.is_executing_executing, WorkerState.is_executing_taken] at h1 h2
    simp only [World.Counted, World.executing_count, World.waiting_count]
    simp at h1 h2
    constructor <;> omega
  · subst hw
    obtain ⟨h1, h2⟩ := World.counts_set w.workers i wk
      { wk with state := WorkerState.waiting, last_time := w.now, result := none } hwk
    simp only [hst, WorkerState.is_executing_waiting, WorkerState.is_executing_returned,
      WorkerState.is_executing_executing, WorkerState.is_executing_taken] at h1 h2
    simp only [World.Counted, World.executing_count, World.waiting_count]
    simp at h1 h2
    constructor <;> omega

/-- Every transition keeps the meaning of the counters. -/
theorem World.Counted.preserved_by_transition {w w' : World El} {e : Event El}
    (h : w.Counted) (hs : w.step e = .ok w') : w'.Counted := by
  cases e with
  | set_mode mode =>
    simp only [World.step, Except.ok.injEq] at hs
    subst hs
    refine h.of_eq ?_ ?_ rfl
    · simp only [ThreadPool.set_mode]; split <;> rfl
    · simp only [ThreadPool.set_mode]; split <;> rfl
  | set_task_que_max_thresh_hold t =>
    simp only [World.step, Except.ok.injEq] at hs
    subst hs
    refine h.of_eq ?_ ?_ rfl
    · simp only [ThreadPool.set_task_que_max_thresh_hold]; split <;> rfl
    · simp only [ThreadPool.set_task_que_max_thresh_hold]; split <;> rfl
  | set_thread_size_thresh_hold t =>
    simp only [World.step, Except.ok.injEq] at hs
    subst hs
    refine h.of_eq ?_ ?_ rfl
    · simp only [ThreadPool.set_thread_size_thresh_hold]
      split
      · rfl
      · split <;> rfl
    · simp only [ThreadPool.set_thread_size_thresh_hold]
      split
      · rfl
      · split <;> rfl
  | start n =>
    simp only [World.step] at hs
    exact (World.start_ok w w' n hs).counted (h.of_eq rfl rfl rfl)
  | make_task body =>
    simp only [World.step, Except.ok.injEq] at hs
    subst hs
    exact h.of_eq rfl rfl rfl
  | submit_task sp =>
    simp only [World.step] at hs
    split at hs
    · cases hs
    · rename_i w1 r hsub
      cases hs
      rcases World.submit_task_ok w w' sp r hsub with
        ⟨_, hn⟩ | ⟨_, hn⟩ | ⟨_, _, _, w2, hsp, hn⟩
      · obtain ⟨hp, hw, _⟩ := Result.new_pool _ _ _ _ _ hn
        exact h.of_eq (by rw [hp]) (by rw [hp]) hw
      · obtain ⟨hp, hw, _⟩ := Result.new_pool _ _ _ _ _ hn
        exact h.of_eq (by rw [hp]) (by rw [hp]) hw
      · obtain ⟨hp, hw, _⟩ := Result.new_pool _ _ _ _ _ hn
        exact (hsp.counted (h.of_eq rfl rfl rfl)).of_eq (by rw [hp]) (by rw [hp]) hw
  | result_get r =>
    simp only [World.step, Except.ok.injEq] at hs
    subst hs
    obtain ⟨hp, hw, _⟩ := World.result_get_pool w r
    exact h.of_eq (by rw [hp]) (by rw [hp]) hw
  | thread_func i b =>
    simp only [World.step] at hs
    exact h.preserved_by_worker_turn hs
  | destructor =>
    simp only [World.step, Except.ok.injEq] at hs
    subst hs
    exact h.of_eq rfl rfl rfl
  | clock ticks =>
    simp only [World.step, Except.ok.injEq] at hs
    subst hs
    exact h.of_eq rfl rfl rfl

theorem World.fresh_counted (g t : Int) : (World.fresh g t : World El).Counted := by
  simp [World.Counted, World.executing_count, World.waiting_count, World.fresh,
    ThreadPool.new]

/-- C11: while the running flag is true, `set_mode`, `set_task_que_max_thresh_hold` and
`set_thread_size_thresh_hold` change nothing, whatever their argument: the pool keeps
every member, and so does the rest of the world. -/
theorem C11_setters_do_nothing_while_running (w : World El) (mode : PoolMode)
    (capacity threshhold : SizeT) (hrun : w.pool.m_is_pool_running = true) :
    w.pool.set_mode mode = w.pool ∧
    w.pool.set_task_que_max_thresh_hold capacity = w.pool ∧
    w.pool.set_thread_size_thresh_hold threshhold = w.pool ∧
    w.step (.set_mode mode) = .ok w ∧
    w.step (.set_task_que_max_thresh_hold capacity) = .ok w ∧
    w.step (.set_thread_size_thresh_hold threshhold) = .ok w := by
  have h1 := ThreadPool.set_mode_running w.pool mode hrun
  have h2 := ThreadPool.set_task_que_max_thresh_hold_running w.pool capacity hrun
  have h3 := ThreadPool.set_thread_size_thresh_hold_running w.pool threshhold hrun
  refine ⟨h1, h2, h3, ?_, ?_, ?_⟩
  · simp only [World.step, h1]
  · simp only [World.step, h2]
  · simp only [World.step, h3]

/-- C11, on `running_with_busy_worker`: switching to cached mode, a capacity of 0 and a
thread threshold of 7 are all ignored. -/
theorem C11_setters_do_nothing_while_running_witness :
    running_with_busy_worker.pool.set_mode PoolMode.MODE_CACHED
      = running_with_busy_worker.pool ∧
    running_with_busy_worker.pool.set_task_que_max_thresh_hold 0
      = running_with_busy_worker.pool ∧
    running_with_busy_worker.pool.set_thread_size_thresh_hold 7
      = running_with_busy_worker.pool ∧
    running_with_busy_worker.step (.set_mode PoolMode.MODE_CACHED)
      = .ok running_with_busy_worker ∧
    running_with_busy_worker.step (.set_task_que_max_thresh_hold 0)
      = .ok running_with_busy_worker ∧
    running_with_busy_worker.step (.set_thread_size_thresh_hold 7)
      = .ok running_with_busy_worker :=
  C11_setters_do_nothing_while_running running_with_busy_worker PoolMode.MODE_CACHED 0 7 rfl

/-- With no worker scheduled inside a call of `start`: along every run from a new pool,
after every transition `0 <= m_idle_thread_size <= m_cur_thread_size`. -/
theorem World.idle_between_zero_and_current (g t : Int) (es : List (Event El)) (w : World El)
    (hrun : (World.fresh g t : World El).run es = .ok w) :
    0 ≤ w.pool.m_idle_thread_size ∧ w.pool.m_idle_thread_size ≤ w.pool.m_cur_thread_size := by
  have hc : w.Counted :=
    World.run_invariant World.Counted (fun _ _ => true)
      (fun w e w' hP _ hs => World.Counted.preserved_by_transition hP hs) es _ w
      (World.fresh_counted g t) (World.guarded_true es _) hrun
  obtain ⟨ha, hb⟩ := hc
  constructor <;> omega

/-- C12, the code at the failing input: a task is queued before `start(1)`.  The call of
`start` is the same statements as `start_prologue`, `launch_thread`, `count_idle`,
`count_cur`; when the worker it has launched takes its turn before the two increments,
that turn is a dequeue after which the idle count is -1 and the current count 0. -/
theorem C12_worker_dequeues_inside_start :
    queued_before_start.start 1
      = (match (queued_before_start.start_prologue 1).launch_thread 0 with
         | .ok w => .ok w.count_idle.count_cur
         | .error f => .error f) ∧
    queued_before_start.pool.m_task_que = [0] ∧
    worker_turn_inside_start.workers.map Worker.state = [WorkerState.taken 0] ∧
    worker_turn_inside_start.pool.m_task_que = [] ∧
    worker_turn_inside_start.pool.m_idle_thread_size = -1 ∧
    worker_turn_inside_start.pool.m_cur_thread_size = 0 ∧
    ¬ (0 ≤ worker_turn_inside_start.pool.m_idle_thread_size) :=
  ⟨rfl, rfl, rfl, rfl, rfl, rfl, by decide⟩

/-- C13, the code at two failing inputs.  With the id counter at 1, `start(1)` registers
the thread with id 1 and then looks up `m_threads[0]`: the key is absent, a null pointer
is inserted and dereferenced.  In `started_after_early_growth` the counter is 1 because
`submit_task` created thread 0 before `start(1)`: the call registers id 1 but starts the
thread object with id 0 a second time, and the thread with id 1 is never started. -/
theorem C13_start_looks_up_positions_not_ids :
    second_pool_threads_created.pool.m_threads = [(1, some ⟨1⟩)] ∧
    Registry.index second_pool_threads_created.pool.m_threads 0
      = ([(1, some ⟨1⟩), (0, none)], none) ∧
    (World.fresh 1 0 : World UserEl).start 1 = .error Fault.null_deref ∧
    started_after_early_growth.pool.m_threads = [(0, some ⟨0⟩), (1, some ⟨1⟩)] ∧
    started_after_early_growth.workers.map Worker.threadid = [0, 0] :=
  ⟨rfl, rfl, rfl, rfl, rfl⟩

end Claims

end ThreadPoolModel
